import Mathlib

/-!
Shallow embedding of `src/dynamics/solver/velocity_constraint_wide.rs` (the
SIMD-batched velocity contact-constraint solver), instantiated for the `dim2`
build: `DIM = 2`, so `Vector` is a 2-vector, `AngVector` and `AngularInertia`
are scalars, and there is exactly `DIM - 1 = 1` tangent direction per contact.

Machine floats (`SimdFloat` lanes) are modelled as `ℚ`.  SIMD values are
modelled lane-by-lane: a `SimdFloat` is a family of `ℚ` indexed by the lane
number, and every lanewise SIMD operation becomes the identical scalar
computation performed independently on each lane; the only cross-lane
interactions in the source are the gather/extract and scatter loops around the
shared `mj_lambdas` buffer and the per-lane writeback, which are modelled
explicitly in program order.
-/

namespace Rapier

/-- 2D vector (`Vector<Real>` of the source in the `dim2` build). -/
structure Vec2 where
  x : ℚ
  y : ℚ
  deriving DecidableEq, Repr

instance : Zero Vec2 := ⟨⟨0, 0⟩⟩

instance : Add Vec2 := ⟨fun a b => ⟨a.x + b.x, a.y + b.y⟩⟩

instance : Neg Vec2 := ⟨fun a => ⟨-a.x, -a.y⟩⟩

instance : Sub Vec2 := ⟨fun a b => ⟨a.x - b.x, a.y - b.y⟩⟩

/-- `Vector * scalar` (componentwise scaling), as used by the source. -/
instance : HMul Vec2 ℚ Vec2 := ⟨fun v a => ⟨v.x * a, v.y * a⟩⟩

theorem Vec2.zero_def : (0 : Vec2) = ⟨0, 0⟩ := rfl

theorem Vec2.add_def (a b : Vec2) : a + b = ⟨a.x + b.x, a.y + b.y⟩ := rfl

theorem Vec2.neg_def (a : Vec2) : -a = ⟨-a.x, -a.y⟩ := rfl

theorem Vec2.sub_def (a b : Vec2) : a - b = ⟨a.x - b.x, a.y - b.y⟩ := rfl

theorem Vec2.smul_def (v : Vec2) (a : ℚ) : v * a = ⟨v.x * a, v.y * a⟩ := rfl

instance : AddCommMonoid Vec2 where
  add_assoc a b c := by simp [Vec2.add_def]; constructor <;> ring
  zero_add a := by simp [Vec2.add_def, Vec2.zero_def]
  add_zero a := by simp [Vec2.add_def, Vec2.zero_def]
  add_comm a b := by simp [Vec2.add_def]; constructor <;> ring
  nsmul := nsmulRec

/-- Dot product of 2-vectors. -/
def Vec2.dot (a b : Vec2) : ℚ :=
  a.x * b.x + a.y * b.y

/-- `gcross` of two 2-vectors (perp-dot product), yielding a 2D angular scalar. -/
def Vec2.gcross (a b : Vec2) : ℚ :=
  a.x * b.y - a.y * b.x

/-- `gcross` of a 2D angular velocity (scalar) with a 2-vector
(`impl WCross<Vector2> for scalar`: `Vector2::new(-rhs.y * self, rhs.x * self)`). -/
def angGcross (w : ℚ) (v : Vec2) : Vec2 :=
  ⟨-(v.y * w), v.x * w⟩

/-- `orthonormal_basis()` of a 2-vector: the single tangent direction
`[Vector2::new(-self.y, self.x)]`. -/
def orthonormalBasis (v : Vec2) : Vec2 :=
  ⟨-v.y, v.x⟩

/-- 2D rotation (unit complex: cosine and sine parts). -/
structure Rot2 where
  c : ℚ
  s : ℚ
  deriving DecidableEq, Repr

/-- Compose two rotations (complex multiplication). -/
def Rot2.comp (a b : Rot2) : Rot2 :=
  ⟨a.c * b.c - a.s * b.s, a.s * b.c + a.c * b.s⟩

/-- Apply a rotation to a 2-vector. -/
def Rot2.apply (r : Rot2) (v : Vec2) : Vec2 :=
  ⟨r.c * v.x - r.s * v.y, r.s * v.x + r.c * v.y⟩

/-- 2D isometry (`Isometry<Real>`): rotation followed by translation. -/
structure Iso2 where
  rot : Rot2
  tr : Vec2
  deriving DecidableEq, Repr

/-- Identity isometry. -/
def Iso2.id : Iso2 :=
  ⟨⟨1, 0⟩, 0⟩

/-- Isometry composition (`pos1 * delta1`). -/
def Iso2.comp (a b : Iso2) : Iso2 :=
  ⟨a.rot.comp b.rot, a.rot.apply b.tr + a.tr⟩

/-- Apply an isometry to a point (`iso * Point`). -/
def Iso2.applyPoint (i : Iso2) (p : Vec2) : Vec2 :=
  i.rot.apply p + i.tr

/-- Apply an isometry to a vector (`iso * Vector`: rotation only). -/
def Iso2.applyVec (i : Iso2) (v : Vec2) : Vec2 :=
  i.rot.apply v

/-- `simd_clamp` (simba: `self.simd_max(min).simd_min(max)`). -/
def simdClamp (x lo hi : ℚ) : ℚ :=
  min (max x lo) hi

/-- `DeltaVel<f32>`: one body's entry in the velocity-delta buffer. -/
structure DeltaVel where
  linear : Vec2
  angular : ℚ
  deriving DecidableEq, Repr

/-- The all-zero velocity delta. -/
def DeltaVel.zero : DeltaVel :=
  ⟨0, 0⟩

instance : Zero DeltaVel := ⟨DeltaVel.zero⟩

instance : Add DeltaVel := ⟨fun a b => ⟨a.linear + b.linear, a.angular + b.angular⟩⟩

theorem deltaVel_add_eq (a b : DeltaVel) :
    a + b = ⟨a.linear + b.linear, a.angular + b.angular⟩ := rfl

theorem deltaVel_zero_eq : (0 : DeltaVel) = ⟨0, 0⟩ := rfl

instance : AddCommMonoid DeltaVel where
  add_assoc a b c := by simp [deltaVel_add_eq, add_assoc]
  zero_add a := by simp [deltaVel_add_eq, deltaVel_zero_eq]
  add_zero a := by simp [deltaVel_add_eq, deltaVel_zero_eq]
  add_comm a b := by simp [deltaVel_add_eq]; constructor <;> exact add_comm _ _
  nsmul := nsmulRec

/-- Replace the element of a list at an index by applying `f`
(out-of-range indices leave the list unchanged). -/
def modifyIdx (f : α → α) : ℕ → List α → List α
  | _, [] => []
  | 0, a :: as => f a :: as
  | n + 1, a :: as => a :: modifyIdx f n as

/-- Overwrite the element of a list at an index
(out-of-range indices leave the list unchanged). -/
def setIdx (l : List α) (i : ℕ) (v : α) : List α :=
  modifyIdx (fun _ => v) i l

theorem length_modifyIdx (f : α → α) (i : ℕ) (l : List α) :
    (modifyIdx f i l).length = l.length := by
  induction l generalizing i with
  | nil => cases i <;> rfl
  | cons a as ih =>
    cases i with
    | zero => rfl
    | succ n => simp [modifyIdx, ih]

theorem getD_modifyIdx_self (f : α → α) (i : ℕ) (l : List α) (d : α) (h : i < l.length) :
    (modifyIdx f i l).getD i d = f (l.getD i d) := by
  induction l generalizing i with
  | nil => simp at h
  | cons a as ih =>
    cases i with
    | zero => rfl
    | succ n =>
      simp only [modifyIdx, List.getD_cons_succ]
      exact ih n (by simpa using h)

theorem getD_modifyIdx_ne (f : α → α) (i j : ℕ) (l : List α) (d : α) (h : i ≠ j) :
    (modifyIdx f i l).getD j d = l.getD j d := by
  induction l generalizing i j with
  | nil => cases i <;> rfl
  | cons a as ih =>
    cases i with
    | zero =>
      cases j with
      | zero => exact absurd rfl h
      | succ m => rfl
    | succ n =>
      cases j with
      | zero => rfl
      | succ m =>
        simp only [modifyIdx, List.getD_cons_succ]
        exact ih n m (by omega)

theorem modifyIdx_oob (f : α → α) (i : ℕ) (l : List α) (h : l.length ≤ i) :
    modifyIdx f i l = l := by
  induction l generalizing i with
  | nil => cases i <;> rfl
  | cons a as ih =>
    cases i with
    | zero => simp at h
    | succ n => simp [modifyIdx, ih n (by simpa using h)]

theorem length_setIdx (l : List α) (i : ℕ) (v : α) :
    (setIdx l i v).length = l.length :=
  length_modifyIdx _ _ _

theorem getD_setIdx_self (l : List α) (i : ℕ) (v : α) (d : α) (h : i < l.length) :
    (setIdx l i v).getD i d = v :=
  getD_modifyIdx_self _ _ _ _ h

theorem getD_setIdx_ne (l : List α) (i j : ℕ) (v : α) (d : α) (h : i ≠ j) :
    (setIdx l i v).getD j d = l.getD j d :=
  getD_modifyIdx_ne _ _ _ _ _ h

/-! ## Data model (one SIMD lane) -/

/-- `WVelocityConstraintElementPart` for one SIMD lane: the precomputed solver
coefficients and the accumulated impulse for one direction (normal or tangent)
of one contact point. -/
structure WVelocityConstraintElementPart where
  gcross1 : ℚ
  gcross2 : ℚ
  rhs : ℚ
  impulse : ℚ
  r : ℚ
  deriving DecidableEq, Repr

/-- `WVelocityConstraintElementPart::zero()`. -/
def WVelocityConstraintElementPart.zero : WVelocityConstraintElementPart :=
  ⟨0, 0, 0, 0, 0⟩

/-- `WVelocityConstraintElement` for one SIMD lane: one normal part plus the
`DIM - 1 = 1` tangent part of the `dim2` build. -/
structure WVelocityConstraintElement where
  normal_part : WVelocityConstraintElementPart
  tangent_part : WVelocityConstraintElementPart
  deriving DecidableEq, Repr

/-- `WVelocityConstraintElement::zero()`. -/
def WVelocityConstraintElement.zero : WVelocityConstraintElement :=
  ⟨WVelocityConstraintElementPart.zero, WVelocityConstraintElementPart.zero⟩

/-- One SIMD lane's view of a `WVelocityConstraint`: the per-lane components of
every SIMD-packed field.  The fields `num_contacts` and `manifold_contact_id`
are plain scalars in the source (shared by all lanes) and live in the batched
structure `WVelocityConstraint` below. -/
structure WVelocityConstraintLane where
  dir1 : Vec2
  elements : List WVelocityConstraintElement
  im1 : ℚ
  im2 : ℚ
  limit : ℚ
  mj_lambda1 : ℕ
  mj_lambda2 : ℕ
  manifold_id : ℕ
  deriving DecidableEq, Repr

/-- The batched `WVelocityConstraint`: `width = SIMD_WIDTH` independent lanes
(the function `lanes` is meaningful on `0, ..., width - 1`), together with the
shared scalar fields `num_contacts` and `manifold_contact_id`. -/
structure WVelocityConstraint where
  width : ℕ
  lanes : ℕ → WVelocityConstraintLane
  num_contacts : ℕ
  manifold_contact_id : ℕ

/-- A default (empty) batched constraint, used only as a `getD` fallback. -/
def WVelocityConstraint.zero : WVelocityConstraint :=
  ⟨0, fun _ => ⟨0, [], 0, 0, 0, 0, 0, 0⟩, 0, 0⟩

/-! ## External collaborators (interfaces from `crate::dynamics` /
`crate::geometry`, as described by the spec's data-model section) -/

/-- One contact point of a manifold (`dim2`: a single scalar
`tangent_impulse`). -/
structure ContactPoint where
  local_p1 : Vec2
  local_p2 : Vec2
  dist : ℚ
  impulse : ℚ
  tangent_impulse : ℚ
  deriving DecidableEq, Repr

/-- A zero contact point, used only as a `getD` fallback. -/
def ContactPoint.zero : ContactPoint :=
  ⟨0, 0, 0, 0, 0⟩

/-- `ContactManifold`, restricted to the fields this file reads: the body pair
(as indices into the rigid-body set), the delta transforms, the local contact
normal of the first body, the material coefficients, the warm-start
multiplier, the active contact points (`active_contacts()`), and the stable
output slot `constraint_index` used by the update mode. -/
structure ContactManifold where
  body1 : ℕ
  body2 : ℕ
  delta1 : Iso2
  delta2 : Iso2
  local_n1 : Vec2
  friction : ℚ
  restitution : ℚ
  warmstart_multiplier : ℚ
  active_contacts : List ContactPoint
  constraint_index : ℕ
  deriving DecidableEq, Repr

/-- An empty manifold, used only as a `getD` fallback. -/
def ContactManifold.zero : ContactManifold :=
  ⟨0, 0, Iso2.id, Iso2.id, 0, 0, 0, 0, [], 0⟩

/-- The fields of a `RigidBody` this file reads. -/
structure RigidBody where
  inv_mass : ℚ
  world_inv_inertia_sqrt : ℚ
  linvel : Vec2
  angvel : ℚ
  position : Iso2
  world_com : Vec2
  active_set_offset : ℕ
  deriving DecidableEq, Repr

/-- The fields of `IntegrationParameters` this file reads. -/
structure IntegrationParameters where
  inv_dt : ℚ
  restitution_velocity_threshold : ℚ
  warmstart_coeff : ℚ
  deriving DecidableEq, Repr

/-! ## `generate` -/

/-- The per-lane values gathered by the header of
`WVelocityConstraint::generate` (lines 71-113) before the chunk loop. -/
structure GenCtx where
  im1 : ℚ
  ii1 : ℚ
  linvel1 : Vec2
  angvel1 : ℚ
  world_com1 : Vec2
  im2 : ℚ
  ii2 : ℚ
  linvel2 : Vec2
  angvel2 : ℚ
  world_com2 : Vec2
  coll_pos1 : Iso2
  coll_pos2 : Iso2
  force_dir1 : Vec2
  mj_lambda1 : ℕ
  mj_lambda2 : ℕ
  friction : ℚ
  restitution : ℚ
  restitution_velocity_threshold : ℚ
  warmstart_coeff : ℚ
  inv_dt : ℚ
  deriving DecidableEq, Repr

/-- Gather one lane's header values for `generate`. -/
def mkGenCtx (params : IntegrationParameters) (m : ContactManifold)
    (bodies : ℕ → RigidBody) : GenCtx :=
  let rb1 := bodies m.body1
  let rb2 := bodies m.body2
  let coll_pos1 := rb1.position.comp m.delta1
  let coll_pos2 := rb2.position.comp m.delta2
  { im1 := rb1.inv_mass
    ii1 := rb1.world_inv_inertia_sqrt
    linvel1 := rb1.linvel
    angvel1 := rb1.angvel
    world_com1 := rb1.world_com
    im2 := rb2.inv_mass
    ii2 := rb2.world_inv_inertia_sqrt
    linvel2 := rb2.linvel
    angvel2 := rb2.angvel
    world_com2 := rb2.world_com
    coll_pos1 := coll_pos1
    coll_pos2 := coll_pos2
    force_dir1 := coll_pos1.applyVec (-m.local_n1)
    mj_lambda1 := rb1.active_set_offset
    mj_lambda2 := rb2.active_set_offset
    friction := m.friction
    restitution := m.restitution
    restitution_velocity_threshold := params.restitution_velocity_threshold
    warmstart_coeff := m.warmstart_multiplier * params.warmstart_coeff
    inv_dt := params.inv_dt }

/-- The body of the per-contact-point loop of `generate` (lines 132-200):
build one `WVelocityConstraintElement` (normal part and the single `dim2`
tangent part) from one manifold point. -/
def genElement (ctx : GenCtx) (pt : ContactPoint) : WVelocityConstraintElement :=
  let p1 := ctx.coll_pos1.applyPoint pt.local_p1
  let p2 := ctx.coll_pos2.applyPoint pt.local_p2
  let dp1 := p1 - ctx.world_com1
  let dp2 := p2 - ctx.world_com2
  let vel1 := ctx.linvel1 + angGcross ctx.angvel1 dp1
  let vel2 := ctx.linvel2 + angGcross ctx.angvel2 dp2
  let ngcross1 := ctx.ii1 * Vec2.gcross dp1 ctx.force_dir1
  let ngcross2 := ctx.ii2 * Vec2.gcross dp2 (-ctx.force_dir1)
  let nr := 1 / (ctx.im1 + ctx.im2 + ngcross1 * ngcross1 + ngcross2 * ngcross2)
  let nrhs0 := (vel1 - vel2).dot ctx.force_dir1
  let nrhs1 :=
    if nrhs0 ≤ -ctx.restitution_velocity_threshold then nrhs0 + nrhs0 * ctx.restitution
    else nrhs0
  let nrhs := nrhs1 + max pt.dist 0 * ctx.inv_dt
  let tangent := orthonormalBasis ctx.force_dir1
  let tgcross1 := ctx.ii1 * Vec2.gcross dp1 tangent
  let tgcross2 := ctx.ii2 * Vec2.gcross dp2 (-tangent)
  let tr := 1 / (ctx.im1 + ctx.im2 + tgcross1 * tgcross1 + tgcross2 * tgcross2)
  let trhs := (vel1 - vel2).dot tangent
  { normal_part :=
      { gcross1 := ngcross1, gcross2 := ngcross2, rhs := nrhs
        impulse := pt.impulse * ctx.warmstart_coeff, r := nr }
    tangent_part :=
      { gcross1 := tgcross1, gcross2 := tgcross2, rhs := trhs
        impulse := pt.tangent_impulse * ctx.warmstart_coeff, r := tr } }

/-- One lane of the constraint emitted for the chunk starting at point offset
`l` with `np` active points, out of a capacity of `cap = MAX_MANIFOLD_POINTS`
element slots (the remaining slots keep their zero initialization). -/
def genLane (ctx : GenCtx) (mid : ℕ) (pts : List ContactPoint) (l np cap : ℕ) :
    WVelocityConstraintLane :=
  { dir1 := ctx.force_dir1
    elements :=
      (List.range np).map (fun k => genElement ctx (pts.getD (l + k) ContactPoint.zero)) ++
        List.replicate (cap - np) WVelocityConstraintElement.zero
    im1 := ctx.im1
    im2 := ctx.im2
    limit := ctx.friction
    mj_lambda1 := ctx.mj_lambda1
    mj_lambda2 := ctx.mj_lambda2
    manifold_id := mid }

/-- The chunk starts of the loop
`for l in (0..manifolds[0].num_active_contacts()).step_by(MAX_MANIFOLD_POINTS)`:
`0, cap, 2 * cap, ...` while `< P`; their number is `⌈P / cap⌉`. -/
def chunkStarts (P cap : ℕ) : List ℕ :=
  (List.range ((P + cap - 1) / cap)).map (fun i => i * cap)

/-- The constraint instance `generate` builds for the chunk starting at `l`. -/
def genChunk (cap : ℕ) (params : IntegrationParameters) (width : ℕ)
    (manifold_id : ℕ → ℕ) (manifolds : ℕ → ContactManifold) (bodies : ℕ → RigidBody)
    (l : ℕ) : WVelocityConstraint :=
  let np := min ((manifolds 0).active_contacts.length - l) cap
  { width := width
    lanes := fun ii =>
      genLane (mkGenCtx params (manifolds ii) bodies) (manifold_id ii)
        (manifolds ii).active_contacts l np cap
    num_contacts := np
    manifold_contact_id := l }

/-- `WVelocityConstraint::generate`: the list of constraint instances emitted,
one per chunk of `cap = MAX_MANIFOLD_POINTS` active contact points of the
lane-0 manifold. -/
def generate (cap : ℕ) (params : IntegrationParameters) (width : ℕ)
    (manifold_id : ℕ → ℕ) (manifolds : ℕ → ContactManifold) (bodies : ℕ → RigidBody) :
    List WVelocityConstraint :=
  (chunkStarts (manifolds 0).active_contacts.length cap).map
    (genChunk cap params width manifold_id manifolds bodies)

/-- `generate` with `push = true`: append every emitted instance to
`out_constraints`. -/
def generate_push (cap : ℕ) (params : IntegrationParameters) (width : ℕ)
    (manifold_id : ℕ → ℕ) (manifolds : ℕ → ContactManifold) (bodies : ℕ → RigidBody)
    (out_constraints : List WVelocityConstraint) : List WVelocityConstraint :=
  out_constraints ++ generate cap params width manifold_id manifolds bodies

/-- `generate` with `push = false` (update mode): overwrite the slot
`manifolds[0].constraint_index + l / cap` for each chunk. -/
def generate_update (cap : ℕ) (params : IntegrationParameters) (width : ℕ)
    (manifold_id : ℕ → ℕ) (manifolds : ℕ → ContactManifold) (bodies : ℕ → RigidBody)
    (out_constraints : List WVelocityConstraint) : List WVelocityConstraint :=
  (chunkStarts (manifolds 0).active_contacts.length cap).foldl
    (fun out l =>
      setIdx out ((manifolds 0).constraint_index + l / cap)
        (genChunk cap params width manifold_id manifolds bodies l))
    out_constraints

/-! ## `warmstart` and `solve` (one lane) -/

/-- One iteration of the warm-start loop (lines 230-249) for one lane: apply
the stored impulses of contact point `i` (normal part, then the tangent part)
to both bodies' gathered velocity deltas. -/
def warmstartStep (dir1 : Vec2) (im1 im2 : ℚ) (elements : List WVelocityConstraintElement)
    (st : DeltaVel × DeltaVel) (i : ℕ) : DeltaVel × DeltaVel :=
  let e := elements.getD i WVelocityConstraintElement.zero
  let elt := e.normal_part
  let d1 : DeltaVel :=
    ⟨st.1.linear + dir1 * (im1 * elt.impulse), st.1.angular + elt.gcross1 * elt.impulse⟩
  let d2 : DeltaVel :=
    ⟨st.2.linear + dir1 * (-im2 * elt.impulse), st.2.angular + elt.gcross2 * elt.impulse⟩
  let tangent := orthonormalBasis dir1
  let telt := e.tangent_part
  let d1t : DeltaVel :=
    ⟨d1.linear + tangent * (im1 * telt.impulse), d1.angular + telt.gcross1 * telt.impulse⟩
  let d2t : DeltaVel :=
    ⟨d2.linear + tangent * (-im2 * telt.impulse), d2.angular + telt.gcross2 * telt.impulse⟩
  (d1t, d2t)

/-- `warmstart` for one lane, on the gathered velocity deltas of its two
bodies. -/
def warmstartLane (nc : ℕ) (c : WVelocityConstraintLane) (d1 d2 : DeltaVel) :
    DeltaVel × DeltaVel :=
  (List.range nc).foldl (warmstartStep c.dir1 c.im1 c.im2 c.elements) (d1, d2)

/-- One iteration of the friction pass of `solve` (lines 281-303) for one
lane: update the tangent impulse of contact point `i` with the clamp to
`[-limit * normalImpulse, +limit * normalImpulse]` and immediately apply the
impulse change to both bodies' velocity deltas. -/
def frictionSolveStep (dir1 : Vec2) (im1 im2 limit : ℚ)
    (st : List WVelocityConstraintElement × DeltaVel × DeltaVel) (i : ℕ) :
    List WVelocityConstraintElement × DeltaVel × DeltaVel :=
  let elements := st.1
  let d1 := st.2.1
  let d2 := st.2.2
  let tangent := orthonormalBasis dir1
  let e := elements.getD i WVelocityConstraintElement.zero
  let normal_elt := e.normal_part
  let elt := e.tangent_part
  let dimpulse := tangent.dot d1.linear + elt.gcross1 * d1.angular
    - tangent.dot d2.linear + elt.gcross2 * d2.angular + elt.rhs
  let lim := limit * normal_elt.impulse
  let new_impulse := simdClamp (elt.impulse - elt.r * dimpulse) (-lim) lim
  let dlambda := new_impulse - elt.impulse
  let elements2 := setIdx elements i { e with tangent_part := { elt with impulse := new_impulse } }
  let d1b : DeltaVel :=
    ⟨d1.linear + tangent * (im1 * dlambda), d1.angular + elt.gcross1 * dlambda⟩
  let d2b : DeltaVel :=
    ⟨d2.linear + tangent * (-im2 * dlambda), d2.angular + elt.gcross2 * dlambda⟩
  (elements2, d1b, d2b)

/-- One iteration of the non-penetration pass of `solve` (lines 305-320) for
one lane: update the normal impulse of contact point `i` with the clamp to
`[0, +infinity)` and immediately apply the impulse change to both bodies'
velocity deltas. -/
def normalSolveStep (dir1 : Vec2) (im1 im2 : ℚ)
    (st : List WVelocityConstraintElement × DeltaVel × DeltaVel) (i : ℕ) :
    List WVelocityConstraintElement × DeltaVel × DeltaVel :=
  let elements := st.1
  let d1 := st.2.1
  let d2 := st.2.2
  let e := elements.getD i WVelocityConstraintElement.zero
  let elt := e.normal_part
  let dimpulse := dir1.dot d1.linear + elt.gcross1 * d1.angular
    - dir1.dot d2.linear + elt.gcross2 * d2.angular + elt.rhs
  let new_impulse := max (elt.impulse - elt.r * dimpulse) 0
  let dlambda := new_impulse - elt.impulse
  let elements2 := setIdx elements i { e with normal_part := { elt with impulse := new_impulse } }
  let d1b : DeltaVel :=
    ⟨d1.linear + dir1 * (im1 * dlambda), d1.angular + elt.gcross1 * dlambda⟩
  let d2b : DeltaVel :=
    ⟨d2.linear + dir1 * (-im2 * dlambda), d2.angular + elt.gcross2 * dlambda⟩
  (elements2, d1b, d2b)

/-- `solve` for one lane: the friction pass over all contact points, then the
non-penetration pass over all contact points. -/
def solveLane (nc : ℕ) (c : WVelocityConstraintLane) (d1 d2 : DeltaVel) :
    WVelocityConstraintLane × DeltaVel × DeltaVel :=
  let s1 := (List.range nc).foldl (frictionSolveStep c.dir1 c.im1 c.im2 c.limit)
    (c.elements, d1, d2)
  let s2 := (List.range nc).foldl (normalSolveStep c.dir1 c.im1 c.im2) s1
  ({ c with elements := s2.1 }, s2.2.1, s2.2.2)

/-! ## `warmstart` and `solve` (batched, with gather and scatter) -/

/-- Gather one entry of the shared velocity-delta buffer. -/
def gatherDelta (buf : List DeltaVel) (i : ℕ) : DeltaVel :=
  buf.getD i DeltaVel.zero

/-- The scatter loops at the end of `warmstart` and `solve`: write lane `t`'s
extracted value at buffer index `idx t`, for `t = 0, ..., w - 1` in increasing
lane order (so later lanes overwrite earlier ones on aliased indices). -/
def scatterDeltas (idx : ℕ → ℕ) (val : ℕ → DeltaVel) : ℕ → List DeltaVel → List DeltaVel
  | 0, buf => buf
  | t + 1, buf => setIdx (scatterDeltas idx val t buf) (idx t) (val t)

/-- `WVelocityConstraint::warmstart`: gather both bodies' deltas for every
lane from the shared buffer, apply the per-lane warm-start math, then scatter
all `mj_lambda1` results followed by all `mj_lambda2` results. -/
def warmstart (c : WVelocityConstraint) (buf : List DeltaVel) : List DeltaVel :=
  let res := fun ii =>
    warmstartLane c.num_contacts (c.lanes ii)
      (gatherDelta buf (c.lanes ii).mj_lambda1) (gatherDelta buf (c.lanes ii).mj_lambda2)
  let buf1 := scatterDeltas (fun ii => (c.lanes ii).mj_lambda1) (fun ii => (res ii).1)
    c.width buf
  scatterDeltas (fun ii => (c.lanes ii).mj_lambda2) (fun ii => (res ii).2) c.width buf1

/-- `WVelocityConstraint::solve`: gather both bodies' deltas for every lane
from the shared buffer, run the per-lane friction and non-penetration passes,
then scatter all `mj_lambda1` results followed by all `mj_lambda2` results. -/
def solve (c : WVelocityConstraint) (buf : List DeltaVel) :
    WVelocityConstraint × List DeltaVel :=
  let res := fun ii =>
    solveLane c.num_contacts (c.lanes ii)
      (gatherDelta buf (c.lanes ii).mj_lambda1) (gatherDelta buf (c.lanes ii).mj_lambda2)
  let buf1 := scatterDeltas (fun ii => (c.lanes ii).mj_lambda1) (fun ii => (res ii).2.1)
    c.width buf
  let buf2 := scatterDeltas (fun ii => (c.lanes ii).mj_lambda2) (fun ii => (res ii).2.2)
    c.width buf1
  ({ c with lanes := fun ii => if ii < c.width then (res ii).1 else c.lanes ii }, buf2)

/-- Iterated `solve` calls (the caller-chosen iteration count). -/
def solveIter (p : WVelocityConstraint × List DeltaVel) : ℕ → WVelocityConstraint × List DeltaVel
  | 0 => p
  | n + 1 => solve (solveIter p n).1 (solveIter p n).2

/-! ## `writeback_impulses` -/

/-- The update `writeback_impulses` applies to one manifold for one lane and
one contact point: store the lane's normal and tangent impulses of element `k`
into the manifold's active contact `manifold_contact_id + k`, leaving every
other point and every other manifold field unchanged. -/
def wbApply (lane : WVelocityConstraintLane) (kbase k : ℕ) (m : ContactManifold) :
    ContactManifold :=
  let e := lane.elements.getD k WVelocityConstraintElement.zero
  { m with
    active_contacts :=
      modifyIdx
        (fun pt =>
          { pt with
            impulse := e.normal_part.impulse
            tangent_impulse := e.tangent_part.impulse })
        (kbase + k) m.active_contacts }

/-- The inner write of `writeback_impulses` for one lane and one contact
point: look the lane's manifold up by `manifold_id` and apply `wbApply`. -/
def writebackPoint (lane : WVelocityConstraintLane) (kbase k : ℕ)
    (manifolds_all : List ContactManifold) : List ContactManifold :=
  modifyIdx (wbApply lane kbase k) lane.manifold_id manifolds_all

/-- The lane loop of `writeback_impulses` for a fixed contact point `k`:
lanes `0, ..., w - 1` write in increasing order. -/
def writebackLanes (c : WVelocityConstraint) (k : ℕ) :
    ℕ → List ContactManifold → List ContactManifold
  | 0, ms => ms
  | t + 1, ms => writebackPoint (c.lanes t) c.manifold_contact_id k (writebackLanes c k t ms)

/-- `WVelocityConstraint::writeback_impulses`: for every contact point
`k < num_contacts` and every lane, copy the final impulses back into the
corresponding manifold point.  The constraint itself is taken by value and
never modified (`&self` in the source). -/
def writeback_impulses (c : WVelocityConstraint) (manifolds_all : List ContactManifold) :
    List ContactManifold :=
  (List.range c.num_contacts).foldl (fun ms k => writebackLanes c k c.width ms) manifolds_all

/-! ## Fold helpers -/

theorem foldl_range_succ (f : β → ℕ → β) (b : β) (n : ℕ) :
    (List.range (n + 1)).foldl f b = f ((List.range n).foldl f b) n := by
  rw [List.range_succ, List.foldl_append]
  rfl

/-- Out-of-range `getD` returns the default. -/
theorem getD_oob (l : List α) (j : ℕ) (d : α) (h : l.length ≤ j) : l.getD j d = d := by
  induction l generalizing j with
  | nil => rfl
  | cons a as ih =>
    cases j with
    | zero => simp at h
    | succ m => exact ih m (by simpa using h)

/-- Clamping to the symmetric interval `[-l, l]` with `0 ≤ l` bounds the
absolute value by `l`. -/
theorem abs_simdClamp_le (x l : ℚ) (h : 0 ≤ l) : |simdClamp x (-l) l| ≤ l := by
  rw [abs_le]
  constructor
  · exact le_min (le_max_right _ _) (by linarith)
  · exact min_le_right _ _

theorem simdClamp_zero (x : ℚ) : simdClamp x (-0) 0 = 0 := by
  simp [simdClamp]

/-! ## Invariants of the friction pass -/

theorem frictionSolveStep_length (dir1 : Vec2) (im1 im2 limit : ℚ)
    (st : List WVelocityConstraintElement × DeltaVel × DeltaVel) (i : ℕ) :
    (frictionSolveStep dir1 im1 im2 limit st i).1.length = st.1.length := by
  simp [frictionSolveStep, length_setIdx]

theorem frictionSolveStep_normal (dir1 : Vec2) (im1 im2 limit : ℚ)
    (st : List WVelocityConstraintElement × DeltaVel × DeltaVel) (i j : ℕ) :
    ((frictionSolveStep dir1 im1 im2 limit st i).1.getD j
        WVelocityConstraintElement.zero).normal_part =
      (st.1.getD j WVelocityConstraintElement.zero).normal_part := by
  simp only [frictionSolveStep]
  by_cases hij : i = j
  · subst hij
    by_cases hlen : i < st.1.length
    · rw [getD_setIdx_self _ _ _ _ hlen]
    · rw [setIdx, modifyIdx_oob _ _ _ (by omega)]
  · rw [getD_setIdx_ne _ _ _ _ _ hij]

theorem frictionSolveStep_getD_ne (dir1 : Vec2) (im1 im2 limit : ℚ)
    (st : List WVelocityConstraintElement × DeltaVel × DeltaVel) (i j : ℕ) (h : i ≠ j) :
    (frictionSolveStep dir1 im1 im2 limit st i).1.getD j WVelocityConstraintElement.zero =
      st.1.getD j WVelocityConstraintElement.zero := by
  simp only [frictionSolveStep]
  rw [getD_setIdx_ne _ _ _ _ _ h]

theorem frictionSolveStep_tangent_self (dir1 : Vec2) (im1 im2 limit : ℚ)
    (st : List WVelocityConstraintElement × DeltaVel × DeltaVel) (i : ℕ)
    (h : i < st.1.length) :
    ∃ x, ((frictionSolveStep dir1 im1 im2 limit st i).1.getD i
        WVelocityConstraintElement.zero).tangent_part.impulse =
      simdClamp x
        (-(limit * (st.1.getD i WVelocityConstraintElement.zero).normal_part.impulse))
        (limit * (st.1.getD i WVelocityConstraintElement.zero).normal_part.impulse) := by
  simp only [frictionSolveStep]
  rw [getD_setIdx_self _ _ _ _ h]
  exact ⟨_, rfl⟩

/-- The friction pass over the first `n` contact points. -/
def frictionFold (dir1 : Vec2) (im1 im2 limit : ℚ) (n : ℕ)
    (st : List WVelocityConstraintElement × DeltaVel × DeltaVel) :
    List WVelocityConstraintElement × DeltaVel × DeltaVel :=
  (List.range n).foldl (frictionSolveStep dir1 im1 im2 limit) st

theorem frictionFold_succ (dir1 : Vec2) (im1 im2 limit : ℚ) (n : ℕ)
    (st : List WVelocityConstraintElement × DeltaVel × DeltaVel) :
    frictionFold dir1 im1 im2 limit (n + 1) st =
      frictionSolveStep dir1 im1 im2 limit (frictionFold dir1 im1 im2 limit n st) n :=
  foldl_range_succ _ _ _

theorem frictionFold_length (dir1 : Vec2) (im1 im2 limit : ℚ) (n : ℕ)
    (st : List WVelocityConstraintElement × DeltaVel × DeltaVel) :
    (frictionFold dir1 im1 im2 limit n st).1.length = st.1.length := by
  induction n with
  | zero => rfl
  | succ m ih => rw [frictionFold_succ, frictionSolveStep_length, ih]

theorem frictionFold_normal (dir1 : Vec2) (im1 im2 limit : ℚ) (n : ℕ)
    (st : List WVelocityConstraintElement × DeltaVel × DeltaVel) (j : ℕ) :
    ((frictionFold dir1 im1 im2 limit n st).1.getD j
        WVelocityConstraintElement.zero).normal_part =
      (st.1.getD j WVelocityConstraintElement.zero).normal_part := by
  induction n with
  | zero => rfl
  | succ m ih => rw [frictionFold_succ, frictionSolveStep_normal, ih]

theorem frictionFold_tangent_bound (dir1 : Vec2) (im1 im2 limit : ℚ) (n : ℕ)
    (st : List WVelocityConstraintElement × DeltaVel × DeltaVel)
    (hlim : 0 ≤ limit)
    (hn : ∀ k, k < n →
      0 ≤ (st.1.getD k WVelocityConstraintElement.zero).normal_part.impulse) :
    ∀ k, k < n →
      |((frictionFold dir1 im1 im2 limit n st).1.getD k
          WVelocityConstraintElement.zero).tangent_part.impulse| ≤
        limit * (st.1.getD k WVelocityConstraintElement.zero).normal_part.impulse := by
  induction n with
  | zero => intro k hk; omega
  | succ m ih =>
    intro k hk
    rw [frictionFold_succ]
    by_cases hkm : k = m
    · subst hkm
      by_cases hlen : k < (frictionFold dir1 im1 im2 limit k st).1.length
      · obtain ⟨x, hx⟩ := frictionSolveStep_tangent_self dir1 im1 im2 limit
          (frictionFold dir1 im1 im2 limit k st) k hlen
        rw [hx, frictionFold_normal]
        exact abs_simdClamp_le _ _ (mul_nonneg hlim (hn k hk))
      · push_neg at hlen
        rw [getD_oob _ _ _ (by rw [frictionSolveStep_length]; omega),
          getD_oob _ _ _ (by rw [frictionFold_length] at hlen; omega)]
        simp [WVelocityConstraintElement.zero, WVelocityConstraintElementPart.zero]
    · rw [frictionSolveStep_getD_ne _ _ _ _ _ _ _ (by omega)]
      exact ih (fun j hj => hn j (by omega)) k (by omega)

theorem frictionFold_tangent_zero (dir1 : Vec2) (im1 im2 : ℚ) (n : ℕ)
    (st : List WVelocityConstraintElement × DeltaVel × DeltaVel) :
    ∀ k, k < n →
      ((frictionFold dir1 im1 im2 0 n st).1.getD k
          WVelocityConstraintElement.zero).tangent_part.impulse = 0 := by
  induction n with
  | zero => intro k hk; omega
  | succ m ih =>
    intro k hk
    rw [frictionFold_succ]
    by_cases hkm : k = m
    · subst hkm
      by_cases hlen : k < (frictionFold dir1 im1 im2 0 k st).1.length
      · obtain ⟨x, hx⟩ := frictionSolveStep_tangent_self dir1 im1 im2 0
          (frictionFold dir1 im1 im2 0 k st) k hlen
        rw [hx, zero_mul, simdClamp_zero]
      · push_neg at hlen
        rw [getD_oob _ _ _ (by rw [frictionSolveStep_length]; omega)]
        simp [WVelocityConstraintElement.zero, WVelocityConstraintElementPart.zero]
    · rw [frictionSolveStep_getD_ne _ _ _ _ _ _ _ (by omega)]
      exact ih k (by omega)

/-! ## Invariants of the non-penetration pass -/

theorem normalSolveStep_length (dir1 : Vec2) (im1 im2 : ℚ)
    (st : List WVelocityConstraintElement × DeltaVel × DeltaVel) (i : ℕ) :
    (normalSolveStep dir1 im1 im2 st i).1.length = st.1.length := by
  simp [normalSolveStep, length_setIdx]

theorem normalSolveStep_tangent (dir1 : Vec2) (im1 im2 : ℚ)
    (st : List WVelocityConstraintElement × DeltaVel × DeltaVel) (i j : ℕ) :
    ((normalSolveStep dir1 im1 im2 st i).1.getD j
        WVelocityConstraintElement.zero).tangent_part =
      (st.1.getD j WVelocityConstraintElement.zero).tangent_part := by
  simp only [normalSolveStep]
  by_cases hij : i = j
  · subst hij
    by_cases hlen : i < st.1.length
    · rw [getD_setIdx_self _ _ _ _ hlen]
    · rw [setIdx, modifyIdx_oob _ _ _ (by omega)]
  · rw [getD_setIdx_ne _ _ _ _ _ hij]

theorem normalSolveStep_getD_ne (dir1 : Vec2) (im1 im2 : ℚ)
    (st : List WVelocityConstraintElement × DeltaVel × DeltaVel) (i j : ℕ) (h : i ≠ j) :
    (normalSolveStep dir1 im1 im2 st i).1.getD j WVelocityConstraintElement.zero =
      st.1.getD j WVelocityConstraintElement.zero := by
  simp only [normalSolveStep]
  rw [getD_setIdx_ne _ _ _ _ _ h]

theorem normalSolveStep_normal_self (dir1 : Vec2) (im1 im2 : ℚ)
    (st : List WVelocityConstraintElement × DeltaVel × DeltaVel) (i : ℕ)
    (h : i < st.1.length) :
    ∃ x, ((normalSolveStep dir1 im1 im2 st i).1.getD i
        WVelocityConstraintElement.zero).normal_part.impulse = max x 0 := by
  simp only [normalSolveStep]
  rw [getD_setIdx_self _ _ _ _ h]
  exact ⟨_, rfl⟩

/-- The non-penetration pass over the first `n` contact points. -/
def normalFold (dir1 : Vec2) (im1 im2 : ℚ) (n : ℕ)
    (st : List WVelocityConstraintElement × DeltaVel × DeltaVel) :
    List WVelocityConstraintElement × DeltaVel × DeltaVel :=
  (List.range n).foldl (normalSolveStep dir1 im1 im2) st

theorem normalFold_succ (dir1 : Vec2) (im1 im2 : ℚ) (n : ℕ)
    (st : List WVelocityConstraintElement × DeltaVel × DeltaVel) :
    normalFold dir1 im1 im2 (n + 1) st =
      normalSolveStep dir1 im1 im2 (normalFold dir1 im1 im2 n st) n :=
  foldl_range_succ _ _ _

theorem normalFold_length (dir1 : Vec2) (im1 im2 : ℚ) (n : ℕ)
    (st : List WVelocityConstraintElement × DeltaVel × DeltaVel) :
    (normalFold dir1 im1 im2 n st).1.length = st.1.length := by
  induction n with
  | zero => rfl
  | succ m ih => rw [normalFold_succ, normalSolveStep_length, ih]

theorem normalFold_tangent (dir1 : Vec2) (im1 im2 : ℚ) (n : ℕ)
    (st : List WVelocityConstraintElement × DeltaVel × DeltaVel) (j : ℕ) :
    ((normalFold dir1 im1 im2 n st).1.getD j
        WVelocityConstraintElement.zero).tangent_part =
      (st.1.getD j WVelocityConstraintElement.zero).tangent_part := by
  induction n with
  | zero => rfl
  | succ m ih => rw [normalFold_succ, normalSolveStep_tangent, ih]

theorem normalFold_nonneg (dir1 : Vec2) (im1 im2 : ℚ) (n : ℕ)
    (st : List WVelocityConstraintElement × DeltaVel × DeltaVel) :
    ∀ k, k < n →
      0 ≤ ((normalFold dir1 im1 im2 n st).1.getD k
          WVelocityConstraintElement.zero).normal_part.impulse := by
  induction n with
  | zero => intro k hk; omega
  | succ m ih =>
    intro k hk
    rw [normalFold_succ]
    by_cases hkm : k = m
    · subst hkm
      by_cases hlen : k < (normalFold dir1 im1 im2 k st).1.length
      · obtain ⟨x, hx⟩ := normalSolveStep_normal_self dir1 im1 im2
          (normalFold dir1 im1 im2 k st) k hlen
        rw [hx]
        exact le_max_right _ _
      · push_neg at hlen
        rw [getD_oob _ _ _ (by rw [normalSolveStep_length]; omega)]
        simp [WVelocityConstraintElement.zero, WVelocityConstraintElementPart.zero]
    · rw [normalSolveStep_getD_ne _ _ _ _ _ _ (by omega)]
      exact ih k (by omega)

/-! ## Per-lane `solve` corollaries -/

theorem solveLane_elements (nc : ℕ) (c : WVelocityConstraintLane) (d1 d2 : DeltaVel) :
    (solveLane nc c d1 d2).1.elements =
      (normalFold c.dir1 c.im1 c.im2 nc
        (frictionFold c.dir1 c.im1 c.im2 c.limit nc (c.elements, d1, d2))).1 := rfl

theorem solveLane_normal_nonneg (nc : ℕ) (c : WVelocityConstraintLane) (d1 d2 : DeltaVel) :
    ∀ k, k < nc →
      0 ≤ ((solveLane nc c d1 d2).1.elements.getD k
          WVelocityConstraintElement.zero).normal_part.impulse := by
  intro k hk
  rw [solveLane_elements]
  exact normalFold_nonneg _ _ _ _ _ k hk

theorem solveLane_tangent_bound (nc : ℕ) (c : WVelocityConstraintLane) (d1 d2 : DeltaVel)
    (hlim : 0 ≤ c.limit)
    (hn : ∀ k, k < nc →
      0 ≤ (c.elements.getD k WVelocityConstraintElement.zero).normal_part.impulse) :
    ∀ k, k < nc →
      |((solveLane nc c d1 d2).1.elements.getD k
          WVelocityConstraintElement.zero).tangent_part.impulse| ≤
        c.limit * (c.elements.getD k WVelocityConstraintElement.zero).normal_part.impulse := by
  intro k hk
  rw [solveLane_elements, normalFold_tangent]
  exact frictionFold_tangent_bound c.dir1 c.im1 c.im2 c.limit nc (c.elements, d1, d2) hlim hn k hk

theorem solveLane_tangent_zero (nc : ℕ) (c : WVelocityConstraintLane) (d1 d2 : DeltaVel)
    (hlim : c.limit = 0) :
    ∀ k, k < nc →
      ((solveLane nc c d1 d2).1.elements.getD k
          WVelocityConstraintElement.zero).tangent_part.impulse = 0 := by
  intro k hk
  rw [solveLane_elements, normalFold_tangent, hlim]
  exact frictionFold_tangent_zero c.dir1 c.im1 c.im2 nc (c.elements, d1, d2) k hk

theorem solveLane_limit (nc : ℕ) (c : WVelocityConstraintLane) (d1 d2 : DeltaVel) :
    (solveLane nc c d1 d2).1.limit = c.limit := rfl

/-! ## Batched `solve` corollaries -/

theorem solve_width (c : WVelocityConstraint) (buf : List DeltaVel) :
    (solve c buf).1.width = c.width := rfl

theorem solve_num_contacts (c : WVelocityConstraint) (buf : List DeltaVel) :
    (solve c buf).1.num_contacts = c.num_contacts := rfl

theorem solve_lanes_lt (c : WVelocityConstraint) (buf : List DeltaVel) (ii : ℕ)
    (h : ii < c.width) :
    (solve c buf).1.lanes ii =
      (solveLane c.num_contacts (c.lanes ii)
        (gatherDelta buf (c.lanes ii).mj_lambda1)
        (gatherDelta buf (c.lanes ii).mj_lambda2)).1 := by
  simp only [solve]
  rw [if_pos h]

theorem solve_limit (c : WVelocityConstraint) (buf : List DeltaVel) (ii : ℕ) :
    ((solve c buf).1.lanes ii).limit = (c.lanes ii).limit := by
  simp only [solve]
  by_cases h : ii < c.width
  · rw [if_pos h, solveLane_limit]
  · rw [if_neg h]

theorem solveIter_width (p : WVelocityConstraint × List DeltaVel) (n : ℕ) :
    (solveIter p n).1.width = p.1.width := by
  induction n with
  | zero => rfl
  | succ m ih => rw [solveIter, solve_width, ih]

theorem solveIter_num_contacts (p : WVelocityConstraint × List DeltaVel) (n : ℕ) :
    (solveIter p n).1.num_contacts = p.1.num_contacts := by
  induction n with
  | zero => rfl
  | succ m ih => rw [solveIter, solve_num_contacts, ih]

theorem solveIter_limit (p : WVelocityConstraint × List DeltaVel) (n : ℕ) (ii : ℕ) :
    ((solveIter p n).1.lanes ii).limit = (p.1.lanes ii).limit := by
  induction n with
  | zero => rfl
  | succ m ih => rw [solveIter, solve_limit, ih]

/-! ## Concrete instances used by counterexamples and witnesses -/

/-- A one-contact lane: unit effective masses, warm-started normal impulse 1,
friction coefficient 1, a tangential relative velocity that drives the
tangent impulse to its clamp limit, and a normal rhs that drives the normal
impulse down to 0 in the subsequent normal pass. -/
def cex1_lane : WVelocityConstraintLane :=
  { dir1 := ⟨1, 0⟩
    elements := [{ normal_part := ⟨0, 0, 1, 1, 1⟩, tangent_part := ⟨0, 0, -5, 0, 1⟩ }]
    im1 := 1, im2 := 0, limit := 1, mj_lambda1 := 0, mj_lambda2 := 1, manifold_id := 0 }

/-- A single-lane batch around `cex1_lane`. -/
def cex1_c : WVelocityConstraint :=
  ⟨1, fun _ => cex1_lane, 1, 0⟩

/-- A zeroed two-entry velocity-delta buffer. -/
def cex1_buf : List DeltaVel :=
  [DeltaVel.zero, DeltaVel.zero]

/-! ## Claim theorems: solve invariants -/

/-- C1, counterexample: the friction-cone claim is false with respect to the
normal impulse stored after the same `solve` call.  On `cex1_c` the friction
pass clamps the tangent impulse to `limit * 1 = 1` using the warm-started
normal impulse `1`, and the subsequent normal pass then lowers the normal
impulse to `0`; after `solve` the stored tangent impulse `1` exceeds
`frictionCoefficient * normalImpulse = 1 * 0`. -/
theorem friction_cone_post_solve_counterexample :
    ¬ (|(((solve cex1_c cex1_buf).1.lanes 0).elements.getD 0
          WVelocityConstraintElement.zero).tangent_part.impulse| ≤
        ((solve cex1_c cex1_buf).1.lanes 0).limit *
          (((solve cex1_c cex1_buf).1.lanes 0).elements.getD 0
            WVelocityConstraintElement.zero).normal_part.impulse) := by
  norm_num [cex1_c, cex1_lane, cex1_buf, solve, solveLane, frictionSolveStep, normalSolveStep,
    scatterDeltas, gatherDelta, setIdx, modifyIdx, simdClamp, orthonormalBasis,
    Vec2.dot, Vec2.add_def, Vec2.smul_def, Vec2.neg_def, DeltaVel.zero, List.range_succ,
    min_def, max_def]

/-- C1, amended claim: immediately after any `solve` call, for every active
contact point and the tangent direction, the stored tangential impulse
satisfies `|tangentialImpulse| ≤ frictionCoefficient * normalImpulseAtEntry`,
where `normalImpulseAtEntry` is the normal impulse held when the call started
(the value the friction pass clamps against, before the subsequent normal
pass updates it), assuming a nonnegative friction coefficient and nonnegative
entry normal impulses. -/
theorem friction_cone_lagged_bound (c : WVelocityConstraint) (buf : List DeltaVel)
    (ii k : ℕ) (hii : ii < c.width) (hk : k < c.num_contacts)
    (hlim : 0 ≤ (c.lanes ii).limit)
    (hn : ∀ j, j < c.num_contacts →
      0 ≤ ((c.lanes ii).elements.getD j WVelocityConstraintElement.zero).normal_part.impulse) :
    |(((solve c buf).1.lanes ii).elements.getD k
        WVelocityConstraintElement.zero).tangent_part.impulse| ≤
      (c.lanes ii).limit *
        ((c.lanes ii).elements.getD k WVelocityConstraintElement.zero).normal_part.impulse := by
  rw [solve_lanes_lt c buf ii hii]
  exact solveLane_tangent_bound c.num_contacts (c.lanes ii)
    (gatherDelta buf (c.lanes ii).mj_lambda1) (gatherDelta buf (c.lanes ii).mj_lambda2)
    hlim hn k hk

/-- Witness for `friction_cone_lagged_bound` at the concrete input `cex1_c`. -/
theorem friction_cone_lagged_bound_witness :
    (0 < cex1_c.width ∧ 0 < cex1_c.num_contacts ∧ 0 ≤ (cex1_c.lanes 0).limit) ∧
      |(((solve cex1_c cex1_buf).1.lanes 0).elements.getD 0
          WVelocityConstraintElement.zero).tangent_part.impulse| ≤
        (cex1_c.lanes 0).limit *
          ((cex1_c.lanes 0).elements.getD 0 WVelocityConstraintElement.zero).normal_part.impulse :=
  ⟨⟨by decide, by decide, by norm_num [cex1_c, cex1_lane]⟩,
    friction_cone_lagged_bound cex1_c cex1_buf 0 0 (by decide) (by decide)
      (by norm_num [cex1_c, cex1_lane])
      (by
        intro j hj
        have hj0 : j = 0 := by
          have : cex1_c.num_contacts = 1 := rfl
          omega
        subst hj0
        norm_num [cex1_c, cex1_lane])⟩

/-- C2: after any number `n ≥ 1` of `solve` calls, the stored normal-part
impulse of every active contact point of every lane is nonnegative (the
normal pass clamps each candidate impulse to `[0, +infinity)` before storing
it). -/
theorem normal_impulse_nonneg_after_solve (p : WVelocityConstraint × List DeltaVel) (n : ℕ)
    (hn : 1 ≤ n) (ii k : ℕ) (hii : ii < p.1.width) (hk : k < p.1.num_contacts) :
    0 ≤ (((solveIter p n).1.lanes ii).elements.getD k
        WVelocityConstraintElement.zero).normal_part.impulse := by
  obtain ⟨m, rfl⟩ : ∃ m, n = m + 1 := ⟨n - 1, by omega⟩
  have hw : (solveIter p m).1.width = p.1.width := solveIter_width p m
  have hnc : (solveIter p m).1.num_contacts = p.1.num_contacts := solveIter_num_contacts p m
  show 0 ≤ (((solve (solveIter p m).1 (solveIter p m).2).1.lanes ii).elements.getD k
      WVelocityConstraintElement.zero).normal_part.impulse
  rw [solve_lanes_lt (solveIter p m).1 (solveIter p m).2 ii (by omega)]
  exact solveLane_normal_nonneg (solveIter p m).1.num_contacts ((solveIter p m).1.lanes ii)
    _ _ k (by omega)

/-- Witness for `normal_impulse_nonneg_after_solve` at the concrete input
`cex1_c` with one iteration. -/
theorem normal_impulse_nonneg_after_solve_witness :
    (1 ≤ 1 ∧ 0 < cex1_c.width ∧ 0 < cex1_c.num_contacts) ∧
      0 ≤ (((solveIter (cex1_c, cex1_buf) 1).1.lanes 0).elements.getD 0
          WVelocityConstraintElement.zero).normal_part.impulse :=
  ⟨⟨by decide, by decide, by decide⟩,
    normal_impulse_nonneg_after_solve (cex1_c, cex1_buf) 1 (by decide) 0 0
      (by decide) (by decide)⟩

/-- C9: if the friction coefficient is `0` in every lane, then after any
number `n ≥ 1` of `solve` calls every active tangential impulse is `0`: the
friction clamp interval degenerates to `[0, 0]` regardless of the tangential
relative velocities and of the warm-started tangential impulses. -/
theorem zero_friction_tangent_impulse_zero (p : WVelocityConstraint × List DeltaVel) (n : ℕ)
    (hn : 1 ≤ n)
    (hlim : ∀ ii, ii < p.1.width → (p.1.lanes ii).limit = 0)
    (ii k : ℕ) (hii : ii < p.1.width) (hk : k < p.1.num_contacts) :
    (((solveIter p n).1.lanes ii).elements.getD k
        WVelocityConstraintElement.zero).tangent_part.impulse = 0 := by
  obtain ⟨m, rfl⟩ : ∃ m, n = m + 1 := ⟨n - 1, by omega⟩
  have hw : (solveIter p m).1.width = p.1.width := solveIter_width p m
  have hnc : (solveIter p m).1.num_contacts = p.1.num_contacts := solveIter_num_contacts p m
  show (((solve (solveIter p m).1 (solveIter p m).2).1.lanes ii).elements.getD k
      WVelocityConstraintElement.zero).tangent_part.impulse = 0
  rw [solve_lanes_lt (solveIter p m).1 (solveIter p m).2 ii (by omega)]
  exact solveLane_tangent_zero (solveIter p m).1.num_contacts ((solveIter p m).1.lanes ii)
    _ _ (by rw [solveIter_limit]; exact hlim ii hii) k (by omega)

/-- A one-contact, zero-friction lane with a nonzero warm-started tangential
impulse and nonzero tangential relative velocity terms. -/
def w9_lane : WVelocityConstraintLane :=
  { dir1 := ⟨1, 0⟩
    elements := [{ normal_part := ⟨0, 0, 1, 2, 1⟩, tangent_part := ⟨0, 0, 3, 7, 1⟩ }]
    im1 := 1, im2 := 1, limit := 0, mj_lambda1 := 0, mj_lambda2 := 1, manifold_id := 0 }

/-- A single-lane batch around `w9_lane`. -/
def w9_c : WVelocityConstraint :=
  ⟨1, fun _ => w9_lane, 1, 0⟩

/-- Witness for `zero_friction_tangent_impulse_zero` at the concrete input
`w9_c` with two iterations. -/
theorem zero_friction_tangent_impulse_zero_witness :
    (1 ≤ 2 ∧ 0 < w9_c.width ∧ 0 < w9_c.num_contacts ∧ (w9_c.lanes 0).limit = 0) ∧
      (((solveIter (w9_c, cex1_buf) 2).1.lanes 0).elements.getD 0
          WVelocityConstraintElement.zero).tangent_part.impulse = 0 :=
  ⟨⟨by decide, by decide, by decide, by norm_num [w9_c, w9_lane]⟩,
    zero_friction_tangent_impulse_zero (w9_c, cex1_buf) 2 (by decide)
      (by
        intro ii hii
        norm_num [w9_c, w9_lane])
      0 0 (by decide) (by decide)⟩

/-! ## Claim theorem: the restitution scenario -/

/-- Integration parameters for the restitution scenario: restitution velocity
threshold `1`, warm-start coefficient `1`, an arbitrary positive inverse
timestep (irrelevant here because the contact depth is `0`). -/
def c5_params : IntegrationParameters := ⟨60, 1, 1⟩

/-- The moving body: inverse mass `1`, velocity `5` toward the plane along the
contact normal, zero angular state, centered at the contact point (zero lever
arms). -/
def c5_body1 : RigidBody :=
  { inv_mass := 1, world_inv_inertia_sqrt := 0, linvel := ⟨-5, 0⟩, angvel := 0,
    position := Iso2.id, world_com := 0, active_set_offset := 0 }

/-- The static plane: inverse mass `0`, inverse inertia `0`. -/
def c5_body2 : RigidBody :=
  { inv_mass := 0, world_inv_inertia_sqrt := 0, linvel := 0, angvel := 0,
    position := Iso2.id, world_com := 0, active_set_offset := 1 }

/-- The two-body set of the restitution scenario. -/
def c5_bodies : ℕ → RigidBody := fun i => if i = 0 then c5_body1 else c5_body2

/-- The single contact point: zero local positions (zero lever arms), zero
penetration depth, zero stored impulses. -/
def c5_point : ContactPoint :=
  { local_p1 := 0, local_p2 := 0, dist := 0, impulse := 0, tangent_impulse := 0 }

/-- The manifold of the restitution scenario: restitution coefficient `1/2`,
local normal `(-1, 0)` so that the force direction on body 1 is `(1, 0)`. -/
def c5_manifold : ContactManifold :=
  { body1 := 0, body2 := 1, delta1 := Iso2.id, delta2 := Iso2.id, local_n1 := ⟨-1, 0⟩,
    friction := 1/2, restitution := 1/2, warmstart_multiplier := 1,
    active_contacts := [c5_point], constraint_index := 0 }

/-- The single constraint emitted by `generate` for the restitution
scenario (capacity `MAX_MANIFOLD_POINTS = 2` of the `dim2` build). -/
def c5_constraint : WVelocityConstraint :=
  (generate 2 c5_params 1 (fun _ => 0) (fun _ => c5_manifold) c5_bodies).getD 0
    WVelocityConstraint.zero

/-- The state after one `solve` call on a zeroed velocity-delta buffer. -/
def c5_solved : WVelocityConstraint × List DeltaVel :=
  solve c5_constraint [DeltaVel.zero, DeltaVel.zero]

/-- C5: in the restitution scenario (inverse mass `1` against a static plane,
approach speed `5` along the normal, restitution `1/2`, threshold `1`, zero
lever arms, zero depth, zero stored impulses), one `generate` followed by one
`solve` yields a separating relative normal velocity of exactly `5/2`: the
approach speed exceeds the threshold, so the target velocity is scaled by
`1 + 1/2`, and one normal-pass update cancels it exactly. -/
theorem restitution_scenario_post_velocity :
    ((c5_body1.linvel + (c5_solved.2.getD 0 DeltaVel.zero).linear
        - (c5_body2.linvel + (c5_solved.2.getD 1 DeltaVel.zero).linear)).dot
      (c5_constraint.lanes 0).dir1) = 5/2 := by
  norm_num [c5_solved, c5_constraint, generate, genChunk, genLane, chunkStarts, mkGenCtx,
    genElement, solve, solveLane, frictionSolveStep, normalSolveStep, scatterDeltas,
    gatherDelta, setIdx, modifyIdx, simdClamp, orthonormalBasis, Iso2.comp, Iso2.id,
    Iso2.applyPoint, Iso2.applyVec, Rot2.comp, Rot2.apply, Vec2.dot, Vec2.gcross, angGcross,
    c5_params, c5_body1, c5_body2, c5_bodies, c5_point, c5_manifold,
    Vec2.add_def, Vec2.sub_def, Vec2.neg_def, Vec2.smul_def, Vec2.zero_def,
    DeltaVel.zero, List.range_succ]

/-! ## Lemmas about `generate` -/

theorem getD_range_map_append (f : ℕ → α) (np k : ℕ) (rest : List α) (d : α) (h : k < np) :
    (((List.range np).map f) ++ rest).getD k d = f k := by
  have h1 : k < ((List.range np).map f).length := by simpa using h
  rw [List.getD_append _ _ _ _ h1, List.getD_eq_getElem _ _ h1]
  simp

theorem genLane_elements_getD (ctx : GenCtx) (mid : ℕ) (pts : List ContactPoint)
    (l np cap k : ℕ) (h : k < np) :
    (genLane ctx mid pts l np cap).elements.getD k WVelocityConstraintElement.zero =
      genElement ctx (pts.getD (l + k) ContactPoint.zero) := by
  simp only [genLane]
  rw [getD_range_map_append _ _ _ _ _ h]

theorem genChunk_num_contacts (cap : ℕ) (params : IntegrationParameters) (width : ℕ)
    (mid : ℕ → ℕ) (ms : ℕ → ContactManifold) (bodies : ℕ → RigidBody) (l : ℕ) :
    (genChunk cap params width mid ms bodies l).num_contacts =
      min ((ms 0).active_contacts.length - l) cap := rfl

theorem genChunk_contact_id (cap : ℕ) (params : IntegrationParameters) (width : ℕ)
    (mid : ℕ → ℕ) (ms : ℕ → ContactManifold) (bodies : ℕ → RigidBody) (l : ℕ) :
    (genChunk cap params width mid ms bodies l).manifold_contact_id = l := rfl

theorem genChunk_lanes (cap : ℕ) (params : IntegrationParameters) (width : ℕ)
    (mid : ℕ → ℕ) (ms : ℕ → ContactManifold) (bodies : ℕ → RigidBody) (l ii : ℕ) :
    (genChunk cap params width mid ms bodies l).lanes ii =
      genLane (mkGenCtx params (ms ii) bodies) (mid ii) (ms ii).active_contacts l
        (min ((ms 0).active_contacts.length - l) cap) cap := rfl

theorem generate_mem (cap : ℕ) (params : IntegrationParameters) (width : ℕ)
    (mid : ℕ → ℕ) (ms : ℕ → ContactManifold) (bodies : ℕ → RigidBody)
    (c : WVelocityConstraint) (hc : c ∈ generate cap params width mid ms bodies) :
    ∃ l ∈ chunkStarts (ms 0).active_contacts.length cap,
      c = genChunk cap params width mid ms bodies l := by
  obtain ⟨l, hl, rfl⟩ := List.mem_map.mp hc
  exact ⟨l, hl, rfl⟩

/-- The ceiling-division bound of the chunk loop: chunk index `i` is emitted
if and only if its start `i * cap` lies before the end of the point list. -/
theorem lt_ceilDiv_iff (cap i P : ℕ) (hc : 0 < cap) :
    i < (P + cap - 1) / cap ↔ i * cap < P := by
  rw [Nat.lt_iff_add_one_le, Nat.le_div_iff_mul_le hc, add_one_mul]
  constructor
  · intro h
    by_contra hP
    push_neg at hP
    omega
  · intro h
    omega

theorem chunkStarts_length (P cap : ℕ) :
    (chunkStarts P cap).length = (P + cap - 1) / cap := by
  simp [chunkStarts]

theorem chunkStarts_getD (P cap i : ℕ) (h : i < (P + cap - 1) / cap) :
    (chunkStarts P cap).getD i 0 = i * cap := by
  have h1 : i < (chunkStarts P cap).length := by rwa [chunkStarts_length]
  rw [List.getD_eq_getElem _ _ h1]
  simp [chunkStarts]

theorem generate_length (cap : ℕ) (params : IntegrationParameters) (width : ℕ)
    (mid : ℕ → ℕ) (ms : ℕ → ContactManifold) (bodies : ℕ → RigidBody) :
    (generate cap params width mid ms bodies).length =
      ((ms 0).active_contacts.length + cap - 1) / cap := by
  simp [generate, chunkStarts]

theorem generate_getD (cap : ℕ) (params : IntegrationParameters) (width : ℕ)
    (mid : ℕ → ℕ) (ms : ℕ → ContactManifold) (bodies : ℕ → RigidBody) (i : ℕ)
    (h : i < (generate cap params width mid ms bodies).length) :
    (generate cap params width mid ms bodies).getD i WVelocityConstraint.zero =
      genChunk cap params width mid ms bodies (i * cap) := by
  rw [List.getD_eq_getElem _ _ h]
  simp [generate, chunkStarts]

/-! ## Claim theorems: `generate` -/

/-- C3: for every contact point processed by `generate`, the normal-part
target velocity `rhs` equals the relative contact velocity of body 1 minus
body 2 projected on the force direction, amplified by `1 + restitution`
exactly when that projected velocity is at most
`-restitutionVelocityThreshold` and left unchanged otherwise, plus a bias of
`max(penetrationDepth, 0) * invDt`. -/
theorem generate_normal_rhs (cap : ℕ) (params : IntegrationParameters) (width : ℕ)
    (mid : ℕ → ℕ) (ms : ℕ → ContactManifold) (bodies : ℕ → RigidBody)
    (c : WVelocityConstraint) (hc : c ∈ generate cap params width mid ms bodies)
    (ii k : ℕ) (hk : k < c.num_contacts) :
    ((c.lanes ii).elements.getD k WVelocityConstraintElement.zero).normal_part.rhs =
      (let ctx := mkGenCtx params (ms ii) bodies
       let pt := (ms ii).active_contacts.getD (c.manifold_contact_id + k) ContactPoint.zero
       let dp1 := ctx.coll_pos1.applyPoint pt.local_p1 - ctx.world_com1
       let dp2 := ctx.coll_pos2.applyPoint pt.local_p2 - ctx.world_com2
       let projvel := ((ctx.linvel1 + angGcross ctx.angvel1 dp1)
         - (ctx.linvel2 + angGcross ctx.angvel2 dp2)).dot ctx.force_dir1
       (if projvel ≤ -ctx.restitution_velocity_threshold
        then (1 + ctx.restitution) * projvel
        else projvel) + max pt.dist 0 * ctx.inv_dt) := by
  obtain ⟨l, hl, rfl⟩ := generate_mem cap params width mid ms bodies c hc
  rw [genChunk_lanes, genChunk_contact_id]
  rw [genChunk_num_contacts] at hk
  rw [genLane_elements_getD _ _ _ _ _ _ _ hk]
  simp only [genElement]
  split_ifs with h
  · ring
  · ring

/-- C4, counterexample to finiteness: for an immovable-immovable pair (both
inverse masses and inverse inertias `0`) with finite inputs, the effective
mass denominator `im1 + im2 + gcross1² + gcross2²` of the generated normal
part is `0`, so the source's `1.0 / denominator` is not the finite reciprocal
the claim asserts (in `f32` it evaluates to `+inf`): `r * denominator = 1`
fails. -/
theorem effective_mass_degenerate_counterexample :
    (let c := (generate 2 c5_params 1 (fun _ => 0) (fun _ => c5_manifold)
        (fun _ => c5_body2)).getD 0 WVelocityConstraint.zero
     let lane := c.lanes 0
     let e := lane.elements.getD 0 WVelocityConstraintElement.zero
     lane.im1 + lane.im2 + e.normal_part.gcross1 * e.normal_part.gcross1
        + e.normal_part.gcross2 * e.normal_part.gcross2 = 0 ∧
      ¬ (e.normal_part.r * (lane.im1 + lane.im2
          + e.normal_part.gcross1 * e.normal_part.gcross1
          + e.normal_part.gcross2 * e.normal_part.gcross2) = 1)) := by
  norm_num [generate, genChunk, genLane, chunkStarts, mkGenCtx, genElement,
    Iso2.comp, Iso2.id, Iso2.applyPoint, Iso2.applyVec, Rot2.comp, Rot2.apply,
    Vec2.dot, Vec2.gcross, angGcross, orthonormalBasis,
    c5_params, c5_body2, c5_point, c5_manifold,
    Vec2.add_def, Vec2.sub_def, Vec2.neg_def, Vec2.smul_def, Vec2.zero_def,
    List.range_succ]

/-- C4, amended claim: for every direction part built by `generate`, the
effective mass `r` equals `1 / (invMass1 + invMass2 + gcross1·gcross1 +
gcross2·gcross2)` with `gcross1`, `gcross2` the stored inverse-inertia
transformed angular Jacobian terms; and whenever both inverse masses are
nonnegative and the denominator is nonzero (the pair is not fully degenerate),
`r` is positive — hence finite and nonnegative. -/
theorem generate_effective_mass (cap : ℕ) (params : IntegrationParameters) (width : ℕ)
    (mid : ℕ → ℕ) (ms : ℕ → ContactManifold) (bodies : ℕ → RigidBody)
    (c : WVelocityConstraint) (hc : c ∈ generate cap params width mid ms bodies)
    (ii k : ℕ) (hk : k < c.num_contacts) :
    (let lane := c.lanes ii
     let e := lane.elements.getD k WVelocityConstraintElement.zero
     let dn := lane.im1 + lane.im2 + e.normal_part.gcross1 * e.normal_part.gcross1
       + e.normal_part.gcross2 * e.normal_part.gcross2
     let dt := lane.im1 + lane.im2 + e.tangent_part.gcross1 * e.tangent_part.gcross1
       + e.tangent_part.gcross2 * e.tangent_part.gcross2
     (e.normal_part.r = 1 / dn ∧ e.tangent_part.r = 1 / dt) ∧
       (0 ≤ lane.im1 → 0 ≤ lane.im2 →
         (dn ≠ 0 → 0 < e.normal_part.r) ∧ (dt ≠ 0 → 0 < e.tangent_part.r))) := by
  obtain ⟨l, hl, rfl⟩ := generate_mem cap params width mid ms bodies c hc
  rw [genChunk_num_contacts] at hk
  simp only [genChunk_lanes]
  rw [genLane_elements_getD _ _ _ _ _ _ _ hk]
  simp only [genLane, genElement]
  refine ⟨⟨trivial, trivial⟩, ?_⟩
  intro h1 h2
  constructor
  · intro hdn
    rw [one_div]
    refine inv_pos.mpr (lt_of_le_of_ne ?_ (Ne.symm hdn))
    nlinarith [sq_nonneg ((mkGenCtx params (ms ii) bodies).ii1 : ℚ)]
  · intro hdt
    rw [one_div]
    refine inv_pos.mpr (lt_of_le_of_ne ?_ (Ne.symm hdt))
    nlinarith

/-- Witness for `generate_normal_rhs` at the restitution-scenario input. -/
theorem generate_normal_rhs_witness :
    (c5_constraint ∈ generate 2 c5_params 1 (fun _ => 0) (fun _ => c5_manifold) c5_bodies ∧
        0 < c5_constraint.num_contacts) ∧
      ((c5_constraint.lanes 0).elements.getD 0
          WVelocityConstraintElement.zero).normal_part.rhs =
        (let ctx := mkGenCtx c5_params c5_manifold c5_bodies
         let pt := c5_manifold.active_contacts.getD (c5_constraint.manifold_contact_id + 0)
           ContactPoint.zero
         let dp1 := ctx.coll_pos1.applyPoint pt.local_p1 - ctx.world_com1
         let dp2 := ctx.coll_pos2.applyPoint pt.local_p2 - ctx.world_com2
         let projvel := ((ctx.linvel1 + angGcross ctx.angvel1 dp1)
           - (ctx.linvel2 + angGcross ctx.angvel2 dp2)).dot ctx.force_dir1
         (if projvel ≤ -ctx.restitution_velocity_threshold
          then (1 + ctx.restitution) * projvel
          else projvel) + max pt.dist 0 * ctx.inv_dt) :=
  have hmem : c5_constraint ∈ generate 2 c5_params 1 (fun _ => 0) (fun _ => c5_manifold)
      c5_bodies := by
    have hlen : 0 < (generate 2 c5_params 1 (fun _ => 0) (fun _ => c5_manifold)
        c5_bodies).length := by
      rw [generate_length]
      norm_num [c5_manifold]
    rw [show c5_constraint = (generate 2 c5_params 1 (fun _ => 0) (fun _ => c5_manifold)
        c5_bodies).getD 0 WVelocityConstraint.zero from rfl, List.getD_eq_getElem _ _ hlen]
    exact List.getElem_mem hlen
  ⟨⟨hmem, by decide⟩,
    generate_normal_rhs 2 c5_params 1 (fun _ => 0) (fun _ => c5_manifold) c5_bodies
      c5_constraint hmem 0 0 (by decide)⟩

/-- Witness for `generate_effective_mass` at the restitution-scenario
input. -/
theorem generate_effective_mass_witness :
    (c5_constraint ∈ generate 2 c5_params 1 (fun _ => 0) (fun _ => c5_manifold) c5_bodies ∧
        0 < c5_constraint.num_contacts) ∧
      (let lane := c5_constraint.lanes 0
       let e := lane.elements.getD 0 WVelocityConstraintElement.zero
       let dn := lane.im1 + lane.im2 + e.normal_part.gcross1 * e.normal_part.gcross1
         + e.normal_part.gcross2 * e.normal_part.gcross2
       let dt := lane.im1 + lane.im2 + e.tangent_part.gcross1 * e.tangent_part.gcross1
         + e.tangent_part.gcross2 * e.tangent_part.gcross2
       (e.normal_part.r = 1 / dn ∧ e.tangent_part.r = 1 / dt) ∧
         (0 ≤ lane.im1 → 0 ≤ lane.im2 →
           (dn ≠ 0 → 0 < e.normal_part.r) ∧ (dt ≠ 0 → 0 < e.tangent_part.r))) :=
  have hmem : c5_constraint ∈ generate 2 c5_params 1 (fun _ => 0) (fun _ => c5_manifold)
      c5_bodies := by
    have hlen : 0 < (generate 2 c5_params 1 (fun _ => 0) (fun _ => c5_manifold)
        c5_bodies).length := by
      rw [generate_length]
      norm_num [c5_manifold]
    rw [show c5_constraint = (generate 2 c5_params 1 (fun _ => 0) (fun _ => c5_manifold)
        c5_bodies).getD 0 WVelocityConstraint.zero from rfl, List.getD_eq_getElem _ _ hlen]
    exact List.getElem_mem hlen
  ⟨⟨hmem, by decide⟩,
    generate_effective_mass 2 c5_params 1 (fun _ => 0) (fun _ => c5_manifold) c5_bodies
      c5_constraint hmem 0 0 (by decide)⟩

/-- C6: `generate` emits one constraint instance per chunk of `cap` active
contact points of the lane-0 manifold: exactly `⌈P / cap⌉` instances, with
`pointOffset` values `0, cap, 2 * cap, ...` and per-instance active count
`min(P - pointOffset, cap)`, so the covered ranges partition `[0, P)` with no
gap and no overlap; and when `P = 0` nothing is emitted: append mode leaves
the output list unchanged and update mode overwrites no slot. -/
theorem generate_chunking (cap : ℕ) (params : IntegrationParameters) (width : ℕ)
    (mid : ℕ → ℕ) (ms : ℕ → ContactManifold) (bodies : ℕ → RigidBody)
    (out : List WVelocityConstraint) (hcap : 0 < cap) :
    (generate cap params width mid ms bodies).length =
      ((ms 0).active_contacts.length + cap - 1) / cap ∧
    (∀ i, i < (generate cap params width mid ms bodies).length →
      ((generate cap params width mid ms bodies).getD i
          WVelocityConstraint.zero).manifold_contact_id = i * cap ∧
      ((generate cap params width mid ms bodies).getD i
          WVelocityConstraint.zero).num_contacts =
        min ((ms 0).active_contacts.length - i * cap) cap) ∧
    (∀ j, j < (ms 0).active_contacts.length →
      ∃! i, i < (generate cap params width mid ms bodies).length ∧ i * cap ≤ j ∧
        j < i * cap + ((generate cap params width mid ms bodies).getD i
          WVelocityConstraint.zero).num_contacts) ∧
    ((ms 0).active_contacts.length = 0 →
      generate_push cap params width mid ms bodies out = out ∧
      generate_update cap params width mid ms bodies out = out) := by
  refine ⟨generate_length cap params width mid ms bodies, ?_, ?_, ?_⟩
  · intro i hi
    rw [generate_getD cap params width mid ms bodies i hi, genChunk_contact_id,
      genChunk_num_contacts]
    exact ⟨rfl, rfl⟩
  · intro j hj
    have hle : j / cap * cap ≤ j := Nat.div_mul_le_self j cap
    have hmod : j % cap + j / cap * cap = j := Nat.mod_add_div' j cap
    have hmlt : j % cap < cap := Nat.mod_lt _ hcap
    have hilen : j / cap < (generate cap params width mid ms bodies).length := by
      rw [generate_length]
      exact (lt_ceilDiv_iff cap (j / cap) (ms 0).active_contacts.length hcap).mpr (by omega)
    refine ⟨j / cap, ⟨hilen, hle, ?_⟩, ?_⟩
    · rw [generate_getD cap params width mid ms bodies _ hilen, genChunk_num_contacts]
      omega
    · intro y hy
      obtain ⟨hy1, hy2, hy3⟩ := hy
      rw [generate_getD cap params width mid ms bodies _ hy1, genChunk_num_contacts] at hy3
      have hy4 : j < Nat.succ y * cap := by
        rw [Nat.succ_mul]
        omega
      exact (Nat.div_eq_of_lt_le hy2 hy4).symm
  · intro hP
    have h0 : ((ms 0).active_contacts.length + cap - 1) / cap = 0 := by
      rw [hP]
      exact Nat.div_eq_of_lt (by omega)
    constructor
    · simp [generate_push, generate, chunkStarts, h0]
    · simp [generate_update, chunkStarts, h0]

/-- A manifold with three active contact points, to exercise the chunking of
`generate` with capacity two. -/
def c6_manifold : ContactManifold :=
  { c5_manifold with active_contacts := [c5_point, c5_point, c5_point] }

/-- Witness for `generate_chunking` at a three-point manifold with capacity
two: the instance count is the ceiling `⌈3 / 2⌉ = 2`. -/
theorem generate_chunking_witness :
    0 < 2 ∧
      (generate 2 c5_params 1 (fun _ => 0) (fun _ => c6_manifold) c5_bodies).length =
        (((fun _ => c6_manifold) 0 : ContactManifold).active_contacts.length + 2 - 1) / 2 :=
  ⟨by decide,
    (generate_chunking 2 c5_params 1 (fun _ => 0) (fun _ => c6_manifold) c5_bodies []
      (by decide)).1⟩

/-! ## Warm-start deltas and scatter semantics -/

/-- The total warm-start contribution to body 1 of one lane, written as the
claim describes it: the sum over active contact points and directions (normal
plus the tangent) of `linear += direction * invMass * storedImpulse` and
`angular += angularJacobianTerm * storedImpulse`. -/
def warmstartDelta1 (nc : ℕ) (lane : WVelocityConstraintLane) : DeltaVel :=
  ∑ i ∈ Finset.range nc,
    { linear :=
        lane.dir1 * (lane.im1 *
            (lane.elements.getD i WVelocityConstraintElement.zero).normal_part.impulse) +
          orthonormalBasis lane.dir1 * (lane.im1 *
            (lane.elements.getD i WVelocityConstraintElement.zero).tangent_part.impulse)
      angular :=
        (lane.elements.getD i WVelocityConstraintElement.zero).normal_part.gcross1 *
            (lane.elements.getD i WVelocityConstraintElement.zero).normal_part.impulse +
          (lane.elements.getD i WVelocityConstraintElement.zero).tangent_part.gcross1 *
            (lane.elements.getD i WVelocityConstraintElement.zero).tangent_part.impulse }

/-- The total warm-start contribution to body 2 of one lane: the same sum with
the opposite linear sign (`-invMass2`) and the body-2 angular Jacobian
terms. -/
def warmstartDelta2 (nc : ℕ) (lane : WVelocityConstraintLane) : DeltaVel :=
  ∑ i ∈ Finset.range nc,
    { linear :=
        lane.dir1 * (-lane.im2 *
            (lane.elements.getD i WVelocityConstraintElement.zero).normal_part.impulse) +
          orthonormalBasis lane.dir1 * (-lane.im2 *
            (lane.elements.getD i WVelocityConstraintElement.zero).tangent_part.impulse)
      angular :=
        (lane.elements.getD i WVelocityConstraintElement.zero).normal_part.gcross2 *
            (lane.elements.getD i WVelocityConstraintElement.zero).normal_part.impulse +
          (lane.elements.getD i WVelocityConstraintElement.zero).tangent_part.gcross2 *
            (lane.elements.getD i WVelocityConstraintElement.zero).tangent_part.impulse }

/-- The per-lane warm-start math is exactly the additive shift by the two
per-lane delta sums. -/
theorem warmstartLane_eq_add (nc : ℕ) (lane : WVelocityConstraintLane) (d1 d2 : DeltaVel) :
    warmstartLane nc lane d1 d2 =
      (d1 + warmstartDelta1 nc lane, d2 + warmstartDelta2 nc lane) := by
  induction nc with
  | zero => simp [warmstartLane, warmstartDelta1, warmstartDelta2]
  | succ m ih =>
    have hstep : warmstartLane (m + 1) lane d1 d2 =
        warmstartStep lane.dir1 lane.im1 lane.im2 lane.elements
          (warmstartLane m lane d1 d2) m :=
      foldl_range_succ _ _ _
    have h1 : warmstartDelta1 (m + 1) lane = warmstartDelta1 m lane + _ :=
      Finset.sum_range_succ _ m
    have h2 : warmstartDelta2 (m + 1) lane = warmstartDelta2 m lane + _ :=
      Finset.sum_range_succ _ m
    rw [hstep, ih, h1, h2]
    simp only [warmstartStep, deltaVel_add_eq, Vec2.add_def, Vec2.smul_def,
      Prod.mk.injEq, DeltaVel.mk.injEq, Vec2.mk.injEq]
    refine ⟨⟨⟨?_, ?_⟩, ?_⟩, ⟨?_, ?_⟩, ?_⟩ <;> ring

theorem scatterDeltas_length (idx : ℕ → ℕ) (val : ℕ → DeltaVel) (t : ℕ) (buf : List DeltaVel) :
    (scatterDeltas idx val t buf).length = buf.length := by
  induction t with
  | zero => rfl
  | succ m ih => rw [scatterDeltas, length_setIdx, ih]

theorem scatterDeltas_getD_notin (idx : ℕ → ℕ) (val : ℕ → DeltaVel) (t : ℕ)
    (buf : List DeltaVel) (p : ℕ) (h : ∀ s, s < t → idx s ≠ p) :
    (scatterDeltas idx val t buf).getD p DeltaVel.zero = buf.getD p DeltaVel.zero := by
  induction t with
  | zero => rfl
  | succ m ih =>
    rw [scatterDeltas, getD_setIdx_ne _ _ _ _ _ (h m (by omega)), ih (fun s hs => h s (by omega))]

/-- Last-writer-wins semantics of the scatter loop: if lane `s` writes buffer
index `p` and no later lane writes `p`, the final entry is lane `s`'s value,
regardless of any earlier lanes that also wrote `p`. -/
theorem scatterDeltas_getD_last (idx : ℕ → ℕ) (val : ℕ → DeltaVel) (t : ℕ)
    (buf : List DeltaVel) (p s : ℕ) (hs : s < t) (hsp : idx s = p)
    (hlast : ∀ u, s < u → u < t → idx u ≠ p) (hp : p < buf.length) :
    (scatterDeltas idx val t buf).getD p DeltaVel.zero = val s := by
  induction t with
  | zero => omega
  | succ m ih =>
    by_cases hsm : s = m
    · subst hsm
      rw [scatterDeltas, hsp]
      exact getD_setIdx_self _ _ _ _ (by rw [scatterDeltas_length]; exact hp)
    · rw [scatterDeltas, getD_setIdx_ne _ _ _ _ _ (hlast m (by omega) (by omega))]
      exact ih (by omega) (fun u hu1 hu2 => hlast u hu1 (by omega))

/-! ## Claim theorem: warm-start frame effect -/

/-- C8: provided the buffer slots referenced by the batch are pairwise
distinct across lanes (within `bodyIndex1`, within `bodyIndex2`, and across
the two) and in range, `warmstart` leaves every other buffer entry unchanged
and shifts each touched entry by exactly the per-lane sum over active contact
points and directions of the stored-impulse contributions, with the opposite
linear sign for body 2.  The constraint itself is taken immutably (`&self`). -/
theorem warmstart_buffer_effect (c : WVelocityConstraint) (buf : List DeltaVel)
    (hinj1 : ∀ ii jj, ii < c.width → jj < c.width →
      (c.lanes ii).mj_lambda1 = (c.lanes jj).mj_lambda1 → ii = jj)
    (hinj2 : ∀ ii jj, ii < c.width → jj < c.width →
      (c.lanes ii).mj_lambda2 = (c.lanes jj).mj_lambda2 → ii = jj)
    (hcross : ∀ ii jj, ii < c.width → jj < c.width →
      (c.lanes ii).mj_lambda1 ≠ (c.lanes jj).mj_lambda2)
    (hrange : ∀ ii, ii < c.width →
      (c.lanes ii).mj_lambda1 < buf.length ∧ (c.lanes ii).mj_lambda2 < buf.length) :
    (∀ p, (∀ ii, ii < c.width → (c.lanes ii).mj_lambda1 ≠ p ∧ (c.lanes ii).mj_lambda2 ≠ p) →
      (warmstart c buf).getD p DeltaVel.zero = buf.getD p DeltaVel.zero) ∧
    (∀ ii, ii < c.width →
      (warmstart c buf).getD (c.lanes ii).mj_lambda1 DeltaVel.zero =
        buf.getD (c.lanes ii).mj_lambda1 DeltaVel.zero +
          warmstartDelta1 c.num_contacts (c.lanes ii) ∧
      (warmstart c buf).getD (c.lanes ii).mj_lambda2 DeltaVel.zero =
        buf.getD (c.lanes ii).mj_lambda2 DeltaVel.zero +
          warmstartDelta2 c.num_contacts (c.lanes ii)) := by
  constructor
  · intro p hp
    simp only [warmstart]
    rw [scatterDeltas_getD_notin _ _ _ _ _ (fun s hs => (hp s hs).2),
      scatterDeltas_getD_notin _ _ _ _ _ (fun s hs => (hp s hs).1)]
  · intro ii hii
    constructor
    · simp only [warmstart]
      rw [scatterDeltas_getD_notin _ _ _ _ _
        (fun s hs => Ne.symm (hcross ii s hii hs))]
      rw [scatterDeltas_getD_last _ _ _ _ _ ii hii rfl
        (fun u hu1 hu2 heq => absurd (hinj1 u ii hu2 hii heq) (by omega))
        ((hrange ii hii).1)]
      rw [warmstartLane_eq_add]
      rfl
    · simp only [warmstart]
      rw [scatterDeltas_getD_last _ _ _ _ _ ii hii rfl
        (fun u hu1 hu2 heq => absurd (hinj2 u ii hu2 hii heq) (by omega))
        (by rw [scatterDeltas_length]; exact (hrange ii hii).2)]
      rw [warmstartLane_eq_add]
      rfl

/-- Witness for `warmstart_buffer_effect` at the concrete single-lane batch
`cex1_c` (buffer slots `0` and `1`, both in the two-entry buffer). -/
theorem warmstart_buffer_effect_witness :
    (0 < cex1_c.width ∧ (cex1_c.lanes 0).mj_lambda1 = 0 ∧ (cex1_c.lanes 0).mj_lambda2 = 1 ∧
        cex1_buf.length = 2) ∧
      (warmstart cex1_c cex1_buf).getD (cex1_c.lanes 0).mj_lambda1 DeltaVel.zero =
        cex1_buf.getD (cex1_c.lanes 0).mj_lambda1 DeltaVel.zero +
          warmstartDelta1 cex1_c.num_contacts (cex1_c.lanes 0) ∧
      (warmstart cex1_c cex1_buf).getD (cex1_c.lanes 0).mj_lambda2 DeltaVel.zero =
        cex1_buf.getD (cex1_c.lanes 0).mj_lambda2 DeltaVel.zero +
          warmstartDelta2 cex1_c.num_contacts (cex1_c.lanes 0) :=
  ⟨⟨by decide, by decide, by decide, by decide⟩,
    (warmstart_buffer_effect cex1_c cex1_buf
      (by
        intro ii jj hii hjj h
        have hw : cex1_c.width = 1 := rfl
        omega)
      (by
        intro ii jj hii hjj h
        have hw : cex1_c.width = 1 := rfl
        omega)
      (by
        intro ii jj hii hjj
        have hw : cex1_c.width = 1 := rfl
        have hii0 : ii = 0 := by omega
        have hjj0 : jj = 0 := by omega
        subst hii0
        subst hjj0
        decide)
      (by
        intro ii hii
        have hw : cex1_c.width = 1 := rfl
        have hii0 : ii = 0 := by omega
        subst hii0
        exact ⟨by decide, by decide⟩)).2 0 (by decide)⟩

/-! ## Claim theorem: lane aliasing loses contributions -/

/-- C10: `warmstart` and `solve` end by scattering each lane's accumulated
buffer entry back in increasing lane order, and every lane's value was
computed from the buffer as gathered before any write.  Hence if lane `ii` is
the last lane (in lane order) whose `bodyIndex2` equals a buffer index `p`,
the final entry at `p` is exactly lane `ii`'s extracted body-2 value — the
contributions computed by every earlier lane aliasing `p`, and every
`bodyIndex1` write to `p`, are lost; and when no lane's `bodyIndex2` is `p`,
the same holds for the last lane whose `bodyIndex1` is `p`.  Distinctness of
the referenced buffer slots across lanes is therefore a correctness
precondition even for a single, non-concurrent call. -/
theorem scatter_last_writer_wins (c : WVelocityConstraint) (buf : List DeltaVel)
    (p ii : ℕ) (hp : p < buf.length) (hii : ii < c.width) :
    ((c.lanes ii).mj_lambda2 = p →
      (∀ jj, ii < jj → jj < c.width → (c.lanes jj).mj_lambda2 ≠ p) →
      (warmstart c buf).getD p DeltaVel.zero =
        (warmstartLane c.num_contacts (c.lanes ii)
          (gatherDelta buf (c.lanes ii).mj_lambda1)
          (gatherDelta buf (c.lanes ii).mj_lambda2)).2 ∧
      (solve c buf).2.getD p DeltaVel.zero =
        (solveLane c.num_contacts (c.lanes ii)
          (gatherDelta buf (c.lanes ii).mj_lambda1)
          (gatherDelta buf (c.lanes ii).mj_lambda2)).2.2) ∧
    ((∀ jj, jj < c.width → (c.lanes jj).mj_lambda2 ≠ p) →
      (c.lanes ii).mj_lambda1 = p →
      (∀ jj, ii < jj → jj < c.width → (c.lanes jj).mj_lambda1 ≠ p) →
      (warmstart c buf).getD p DeltaVel.zero =
        (warmstartLane c.num_contacts (c.lanes ii)
          (gatherDelta buf (c.lanes ii).mj_lambda1)
          (gatherDelta buf (c.lanes ii).mj_lambda2)).1 ∧
      (solve c buf).2.getD p DeltaVel.zero =
        (solveLane c.num_contacts (c.lanes ii)
          (gatherDelta buf (c.lanes ii).mj_lambda1)
          (gatherDelta buf (c.lanes ii).mj_lambda2)).2.1) := by
  constructor
  · intro h2 hlast
    constructor
    · simp only [warmstart]
      rw [scatterDeltas_getD_last _ _ _ _ _ ii hii h2 hlast
        (by rw [scatterDeltas_length]; exact hp)]
    · simp only [solve]
      rw [scatterDeltas_getD_last _ _ _ _ _ ii hii h2 hlast
        (by rw [scatterDeltas_length]; exact hp)]
  · intro hno2 h1 hlast
    constructor
    · simp only [warmstart]
      rw [scatterDeltas_getD_notin _ _ _ _ _ (fun s hs => hno2 s hs),
        scatterDeltas_getD_last _ _ _ _ _ ii hii h1 hlast hp]
    · simp only [solve]
      rw [scatterDeltas_getD_notin _ _ _ _ _ (fun s hs => hno2 s hs),
        scatterDeltas_getD_last _ _ _ _ _ ii hii h1 hlast hp]

/-- A fully aliased two-lane batch: both lanes reference buffer slot `1` for
body 1 and buffer slot `0` for body 2. -/
def c10_c : WVelocityConstraint :=
  ⟨2, fun _ => { cex1_lane with mj_lambda1 := 1, mj_lambda2 := 0 }, 1, 0⟩

/-- Witness for `scatter_last_writer_wins` at the aliased batch `c10_c`: lane
`1` is the last body-2 writer of slot `0`, so the final entry is lane `1`'s
extracted value (computed from the pre-call buffer; lane `0`'s contribution is
lost). -/
theorem scatter_last_writer_wins_witness :
    (0 < c10_c.width ∧ 1 < c10_c.width ∧ (c10_c.lanes 1).mj_lambda2 = 0 ∧
        0 < cex1_buf.length) ∧
      (warmstart c10_c cex1_buf).getD 0 DeltaVel.zero =
        (warmstartLane c10_c.num_contacts (c10_c.lanes 1)
          (gatherDelta cex1_buf (c10_c.lanes 1).mj_lambda1)
          (gatherDelta cex1_buf (c10_c.lanes 1).mj_lambda2)).2 ∧
      (solve c10_c cex1_buf).2.getD 0 DeltaVel.zero =
        (solveLane c10_c.num_contacts (c10_c.lanes 1)
          (gatherDelta cex1_buf (c10_c.lanes 1).mj_lambda1)
          (gatherDelta cex1_buf (c10_c.lanes 1).mj_lambda2)).2.2 :=
  ⟨⟨by decide, by decide, by decide, by decide⟩,
    (scatter_last_writer_wins c10_c cex1_buf 0 1 (by decide) (by decide)).1 (by decide)
      (by
        intro jj h1 h2
        have hw : c10_c.width = 2 := rfl
        omega)⟩

/-! ## Lemmas about `writeback_impulses` -/

theorem writebackPoint_length (lane : WVelocityConstraintLane) (kbase k : ℕ)
    (ms : List ContactManifold) :
    (writebackPoint lane kbase k ms).length = ms.length :=
  length_modifyIdx _ _ _

theorem writebackLanes_length (c : WVelocityConstraint) (k t : ℕ) (ms : List ContactManifold) :
    (writebackLanes c k t ms).length = ms.length := by
  induction t with
  | zero => rfl
  | succ m ih => rw [writebackLanes, writebackPoint_length, ih]

theorem writebackLanes_getD_notin (c : WVelocityConstraint) (k t : ℕ)
    (ms : List ContactManifold) (m : ℕ)
    (h : ∀ s, s < t → (c.lanes s).manifold_id ≠ m) :
    (writebackLanes c k t ms).getD m ContactManifold.zero =
      ms.getD m ContactManifold.zero := by
  induction t with
  | zero => rfl
  | succ u ih =>
    rw [writebackLanes, writebackPoint,
      getD_modifyIdx_ne _ _ _ _ _ (h u (by omega)), ih (fun s hs => h s (by omega))]

/-- With pairwise-distinct manifold ids across the lanes written so far, the
lane loop applies exactly one `wbApply` to lane `jj`'s manifold. -/
theorem writebackLanes_getD_lane (c : WVelocityConstraint) (k t : ℕ)
    (ms : List ContactManifold) (jj : ℕ) (hjj : jj < t)
    (huniq : ∀ u, u < t → u ≠ jj → (c.lanes u).manifold_id ≠ (c.lanes jj).manifold_id)
    (hm : (c.lanes jj).manifold_id < ms.length) :
    (writebackLanes c k t ms).getD (c.lanes jj).manifold_id ContactManifold.zero =
      wbApply (c.lanes jj) c.manifold_contact_id k
        (ms.getD (c.lanes jj).manifold_id ContactManifold.zero) := by
  induction t with
  | zero => omega
  | succ u ih =>
    by_cases hju : jj = u
    · subst hju
      rw [writebackLanes, writebackPoint,
        getD_modifyIdx_self _ _ _ _ (by rw [writebackLanes_length]; exact hm),
        writebackLanes_getD_notin c k jj ms _ (fun s hs => huniq s (by omega) (by omega))]
    · rw [writebackLanes, writebackPoint,
        getD_modifyIdx_ne _ _ _ _ _ (huniq u (by omega) (by omega))]
      exact ih (by omega) (fun v hv => huniq v (by omega))

/-- The manifold-level effect of all `nc` point writes to one lane's
manifold, in contact-point order. -/
def wbIter (lane : WVelocityConstraintLane) (kbase : ℕ) :
    ℕ → ContactManifold → ContactManifold
  | 0, m => m
  | k + 1, m => wbApply lane kbase k (wbIter lane kbase k m)

theorem writeback_impulses_length (c : WVelocityConstraint) (ms : List ContactManifold) :
    (writeback_impulses c ms).length = ms.length := by
  simp only [writeback_impulses]
  induction c.num_contacts with
  | zero => rfl
  | succ n ih => rw [foldl_range_succ, writebackLanes_length, ih]

theorem writeback_impulses_getD_notin (c : WVelocityConstraint) (ms : List ContactManifold)
    (m : ℕ) (h : ∀ s, s < c.width → (c.lanes s).manifold_id ≠ m) :
    (writeback_impulses c ms).getD m ContactManifold.zero =
      ms.getD m ContactManifold.zero := by
  simp only [writeback_impulses]
  induction c.num_contacts with
  | zero => rfl
  | succ n ih => rw [foldl_range_succ, writebackLanes_getD_notin _ _ _ _ _ h, ih]

/-- With pairwise-distinct manifold ids across lanes, `writeback_impulses`
transforms lane `jj`'s manifold by exactly the `nc` point writes of lane
`jj`, in order. -/
theorem writeback_impulses_getD_lane (c : WVelocityConstraint) (ms : List ContactManifold)
    (jj : ℕ) (hjj : jj < c.width)
    (hinj : ∀ u v, u < c.width → v < c.width →
      (c.lanes u).manifold_id = (c.lanes v).manifold_id → u = v)
    (hm : (c.lanes jj).manifold_id < ms.length) :
    (writeback_impulses c ms).getD (c.lanes jj).manifold_id ContactManifold.zero =
      wbIter (c.lanes jj) c.manifold_contact_id c.num_contacts
        (ms.getD (c.lanes jj).manifold_id ContactManifold.zero) := by
  have hfoldlen : ∀ n : ℕ,
      ((List.range n).foldl (fun ms2 k => writebackLanes c k c.width ms2) ms).length =
        ms.length := by
    intro n
    induction n with
    | zero => rfl
    | succ v ihv => rw [foldl_range_succ, writebackLanes_length, ihv]
  simp only [writeback_impulses]
  induction c.num_contacts with
  | zero => rfl
  | succ n ih =>
    rw [foldl_range_succ,
      writebackLanes_getD_lane c n c.width _ jj hjj
        (fun u hu hne heq => hne (hinj u jj hu hjj heq))
        (by rw [hfoldlen n]; exact hm),
      ih, wbIter]

theorem wbIter_eta (lane : WVelocityConstraintLane) (kbase n : ℕ) (m0 : ContactManifold) :
    wbIter lane kbase n m0 =
      { m0 with active_contacts := (wbIter lane kbase n m0).active_contacts } := by
  induction n with
  | zero => rfl
  | succ k ih =>
    show wbApply lane kbase k (wbIter lane kbase k m0) = _
    rw [ih]
    rfl

theorem wbIter_ac_length (lane : WVelocityConstraintLane) (kbase n : ℕ) (m0 : ContactManifold) :
    (wbIter lane kbase n m0).active_contacts.length = m0.active_contacts.length := by
  induction n with
  | zero => rfl
  | succ k ih =>
    show (wbApply lane kbase k (wbIter lane kbase k m0)).active_contacts.length = _
    simp only [wbApply]
    rw [length_modifyIdx, ih]

theorem wbIter_point_untouched (lane : WVelocityConstraintLane) (kbase n : ℕ)
    (m0 : ContactManifold) (j : ℕ) (hj : j < kbase ∨ kbase + n ≤ j) :
    (wbIter lane kbase n m0).active_contacts.getD j ContactPoint.zero =
      m0.active_contacts.getD j ContactPoint.zero := by
  induction n with
  | zero => rfl
  | succ k ih =>
    show (wbApply lane kbase k (wbIter lane kbase k m0)).active_contacts.getD j _ = _
    simp only [wbApply]
    rw [getD_modifyIdx_ne _ _ _ _ _ (by omega), ih (by omega)]

theorem wbIter_point_written (lane : WVelocityConstraintLane) (kbase n : ℕ)
    (m0 : ContactManifold) (k : ℕ) (hk : k < n)
    (hlen : kbase + k < m0.active_contacts.length) :
    (wbIter lane kbase n m0).active_contacts.getD (kbase + k) ContactPoint.zero =
      { m0.active_contacts.getD (kbase + k) ContactPoint.zero with
        impulse := (lane.elements.getD k WVelocityConstraintElement.zero).normal_part.impulse
        tangent_impulse :=
          (lane.elements.getD k WVelocityConstraintElement.zero).tangent_part.impulse } := by
  induction n with
  | zero => omega
  | succ u ih =>
    show (wbApply lane kbase u (wbIter lane kbase u m0)).active_contacts.getD (kbase + k) _ = _
    by_cases hku : k = u
    · subst hku
      simp only [wbApply]
      rw [getD_modifyIdx_self _ _ _ _ (by rw [wbIter_ac_length]; exact hlen),
        wbIter_point_untouched lane kbase k m0 (kbase + k) (by omega)]
    · simp only [wbApply]
      rw [getD_modifyIdx_ne _ _ _ _ _ (by omega), ih (by omega)]

/-! ## Claim theorem: writeback -/

/-- C7: provided the lanes reference pairwise-distinct manifolds and all
indices are in range, `writeback_impulses` copies, for each lane and each
contact point `k < num_contacts`, exactly the in-memory normal and tangential
impulses of element `k` into the lane's manifold point record at active
contact index `manifold_contact_id + k`, with no transformation of the
values; it leaves every other point record, every other field of the touched
manifolds and every untouched manifold unchanged.  The constraint itself is
taken immutably (`&self` in the source). -/
theorem writeback_impulses_effect (c : WVelocityConstraint) (ms : List ContactManifold)
    (hinj : ∀ u v, u < c.width → v < c.width →
      (c.lanes u).manifold_id = (c.lanes v).manifold_id → u = v)
    (hmid : ∀ jj, jj < c.width → (c.lanes jj).manifold_id < ms.length) :
    (∀ jj, jj < c.width → ∀ k, k < c.num_contacts →
      c.manifold_contact_id + k <
        (ms.getD (c.lanes jj).manifold_id ContactManifold.zero).active_contacts.length →
      ((writeback_impulses c ms).getD (c.lanes jj).manifold_id
          ContactManifold.zero).active_contacts.getD (c.manifold_contact_id + k)
          ContactPoint.zero =
        { (ms.getD (c.lanes jj).manifold_id ContactManifold.zero).active_contacts.getD
            (c.manifold_contact_id + k) ContactPoint.zero with
          impulse :=
            ((c.lanes jj).elements.getD k WVelocityConstraintElement.zero).normal_part.impulse
          tangent_impulse :=
            ((c.lanes jj).elements.getD k
              WVelocityConstraintElement.zero).tangent_part.impulse }) ∧
    (∀ jj, jj < c.width → ∀ j,
      j < c.manifold_contact_id ∨ c.manifold_contact_id + c.num_contacts ≤ j →
      ((writeback_impulses c ms).getD (c.lanes jj).manifold_id
          ContactManifold.zero).active_contacts.getD j ContactPoint.zero =
        (ms.getD (c.lanes jj).manifold_id ContactManifold.zero).active_contacts.getD j
          ContactPoint.zero) ∧
    (∀ jj, jj < c.width →
      (writeback_impulses c ms).getD (c.lanes jj).manifold_id ContactManifold.zero =
        { ms.getD (c.lanes jj).manifold_id ContactManifold.zero with
          active_contacts :=
            ((writeback_impulses c ms).getD (c.lanes jj).manifold_id
              ContactManifold.zero).active_contacts }) ∧
    (∀ m, (∀ jj, jj < c.width → (c.lanes jj).manifold_id ≠ m) →
      (writeback_impulses c ms).getD m ContactManifold.zero =
        ms.getD m ContactManifold.zero) := by
  refine ⟨?_, ?_, ?_, ?_⟩
  · intro jj hjj k hk hlen
    rw [writeback_impulses_getD_lane c ms jj hjj hinj (hmid jj hjj)]
    exact wbIter_point_written (c.lanes jj) c.manifold_contact_id c.num_contacts _ k hk hlen
  · intro jj hjj j hj
    rw [writeback_impulses_getD_lane c ms jj hjj hinj (hmid jj hjj)]
    exact wbIter_point_untouched (c.lanes jj) c.manifold_contact_id c.num_contacts _ j hj
  · intro jj hjj
    rw [writeback_impulses_getD_lane c ms jj hjj hinj (hmid jj hjj)]
    exact wbIter_eta (c.lanes jj) c.manifold_contact_id c.num_contacts _
  · intro m hm
    exact writeback_impulses_getD_notin c ms m hm

/-- Witness for `writeback_impulses_effect`: the single-lane batch `cex1_c`
written back into the one-point manifold list `[c5_manifold]`. -/
theorem writeback_impulses_effect_witness :
    (0 < cex1_c.width ∧ 0 < cex1_c.num_contacts ∧
        (cex1_c.lanes 0).manifold_id < ([c5_manifold] : List ContactManifold).length ∧
        cex1_c.manifold_contact_id + 0 <
          (([c5_manifold] : List ContactManifold).getD (cex1_c.lanes 0).manifold_id
            ContactManifold.zero).active_contacts.length) ∧
      ((writeback_impulses cex1_c [c5_manifold]).getD (cex1_c.lanes 0).manifold_id
          ContactManifold.zero).active_contacts.getD (cex1_c.manifold_contact_id + 0)
          ContactPoint.zero =
        { (([c5_manifold] : List ContactManifold).getD (cex1_c.lanes 0).manifold_id
            ContactManifold.zero).active_contacts.getD (cex1_c.manifold_contact_id + 0)
            ContactPoint.zero with
          impulse :=
            ((cex1_c.lanes 0).elements.getD 0 WVelocityConstraintElement.zero).normal_part.impulse
          tangent_impulse :=
            ((cex1_c.lanes 0).elements.getD 0
              WVelocityConstraintElement.zero).tangent_part.impulse } :=
  ⟨⟨by decide, by decide, by decide, by decide⟩,
    (writeback_impulses_effect cex1_c [c5_manifold]
      (by
        intro u v hu hv h
        have hw : cex1_c.width = 1 := rfl
        omega)
      (by
        intro jj hjj
        have hw : cex1_c.width = 1 := rfl
        have : jj = 0 := by omega
        subst this
        decide)).1 0 (by decide) 0 (by decide) (by decide)⟩

end Rapier
